import Mathlib

/-!
Verification of the `coderabbit` review-watch engine of the `dtools`
repository (Go).  The Go sources under
`internal/coderabbit/{state,domain,service,adapters}` are shallowly embedded
below: pure Go functions become Lean functions, the file-backed dedup store
becomes explicit state passing over an abstract `StateFile`, goroutine traces
become explicit action lists, and wall-clock instants become an explicit
integer clock parameter (Go `time.Time`/`time.Duration` are int64
nanoseconds).  Go `int` values are embedded as `Int`; Go byte-level machine
arithmetic (SHA-1) is embedded as `Nat` arithmetic with explicit `% 2^32`.
-/

namespace DTools

/-! ## Character classes and elementary string operations

Go's `regexp` package (RE2 syntax) and the `strings` package are used by the
sources; we embed exactly the character classes they use.
-/

/-- Whitespace class of RE2's `\s`, namely `[\t\n\f\r ]`. -/
def re2IsSpace (c : Char) : Bool :=
  c = '\t' || c = '\n' || c = Char.ofNat 12 || c = Char.ofNat 13 || c = ' '

/-- Word class of RE2's `\w`, namely `[0-9A-Za-z_]`. -/
def re2IsWord (c : Char) : Bool :=
  c.isAlphanum || c = '_'

/-- Character class of Go's `unicode.IsSpace` restricted to the Latin-1 range
(`'\t'`, `'\n'`, `'\v'`, `'\f'`, `'\r'`, `' '`, U+0085, U+00A0); the inputs
relevant here contain no exotic Unicode space characters. -/
def goIsSpace (c : Char) : Bool :=
  c = '\t' || c = '\n' || c = Char.ofNat 11 || c = Char.ofNat 12 ||
  c = Char.ofNat 13 || c = ' ' || c = Char.ofNat 0x85 || c = Char.ofNat 0xA0

/-- Drop the leading run of Go whitespace characters from a character list. -/
def dropLeadingSpaces : List Char → List Char
  | [] => []
  | c :: cs => if goIsSpace c then dropLeadingSpaces cs else c :: cs

/-- Embedding of Go's `strings.TrimSpace`. -/
def trimSpace (s : String) : String :=
  String.mk ((dropLeadingSpaces (dropLeadingSpaces s.data).reverse).reverse)

/-- Substring test on character lists: does `pat` occur contiguously inside
the list?  Embeds Go's `strings.Contains`. -/
def containsSub (pat : List Char) : List Char → Bool
  | [] => pat.isPrefixOf ([] : List Char)
  | c :: t => pat.isPrefixOf (c :: t) || containsSub pat t

/-- Embedding of Go's `strings.Contains`. -/
def strContains (s sub : String) : Bool :=
  containsSub sub.data s.data

/-- Embedding of Go's `strings.HasPrefix`. -/
def strHasLead (s pat : String) : Bool :=
  pat.data.isPrefixOf s.data

/-- Embedding of Go's `strings.HasSuffix`. -/
def strHasTail (s pat : String) : Bool :=
  pat.data.reverse.isPrefixOf s.data.reverse

/-- Embedding of Go's `strings.ToUpper` (the inputs used here are ASCII). -/
def strToUpper (s : String) : String :=
  String.mk (s.data.map Char.toUpper)

/-- Embedding of Go's `strings.ToLower` (the inputs used here are ASCII). -/
def strToLower (s : String) : String :=
  String.mk (s.data.map Char.toLower)

/-- Embedding of Go's `strings.Join` / `strings.Split`-style intercalation. -/
def joinWith (sep : String) (parts : List String) : String :=
  String.intercalate sep parts

/-! ## A small regular-expression engine (Brzozowski derivatives)

The Go sources compile fixed RE2 patterns with `regexp.MustCompile` and only
ever ask `MatchString` (a Boolean, unanchored search).  We embed each pattern
as a value of the abstract syntax `RE` below and decide matching with
derivatives.  `matchHere` decides "the pattern, anchored with `^`, matches
here" (RE2 `^pat` as used by `MatchString`), `matchFull` decides a
`^pat$`-style exact match, and `reSearch` decides an unanchored
`MatchString`. -/

/-- Regular-expression abstract syntax: empty word, single-character class,
concatenation, alternation, Kleene star. -/
inductive RE where
  | eps : RE
  | cls (p : Char → Bool) : RE
  | seq (a b : RE) : RE
  | alt (a b : RE) : RE
  | star (a : RE) : RE

/-- Nullability: does the expression accept the empty word? -/
def RE.nullable : RE → Bool
  | .eps => true
  | .cls _ => false
  | .seq a b => a.nullable && b.nullable
  | .alt a b => a.nullable || b.nullable
  | .star _ => true

/-- Brzozowski derivative with respect to one character. -/
def RE.deriv : RE → Char → RE
  | .eps, _ => .cls (fun _ => false)
  | .cls p, c => if p c then .eps else .cls (fun _ => false)
  | .seq a b, c =>
      if a.nullable then .alt (.seq (a.deriv c) b) (b.deriv c)
      else .seq (a.deriv c) b
  | .alt a b, c => .alt (a.deriv c) (b.deriv c)
  | .star a, c => .seq (a.deriv c) (.star a)

/-- Does the expression match some prefix of the input (i.e. does the
`^`-anchored pattern match)? -/
def matchHere (r : RE) : List Char → Bool
  | [] => r.nullable
  | c :: cs => r.nullable || matchHere (r.deriv c) cs

/-- Does the expression match the entire input (a `^pat$` match)? -/
def matchFull (r : RE) : List Char → Bool
  | [] => r.nullable
  | c :: cs => matchFull (r.deriv c) cs

/-- Unanchored Boolean search, the semantics of Go's
`Regexp.MatchString` for a pattern without anchors. -/
def reSearch (r : RE) : List Char → Bool
  | [] => matchHere r []
  | c :: cs => matchHere r (c :: cs) || reSearch r cs

/-- Literal word (case-sensitive). -/
def reLitChars : List Char → RE
  | [] => .eps
  | c :: cs => .seq (.cls (fun x => x = c)) (reLitChars cs)

/-- Literal word (case-sensitive), from a string. -/
def reLit (s : String) : RE :=
  reLitChars s.data

/-- Case-insensitive single character (for `(?i)` patterns; the embedded
patterns are ASCII). -/
def reChCI (c : Char) : RE :=
  .cls (fun x => x.toLower = c.toLower)

/-- Literal word under `(?i)`. -/
def reLitCIChars : List Char → RE
  | [] => .eps
  | c :: cs => .seq (reChCI c) (reLitCIChars cs)

/-- Literal word under `(?i)`, from a string. -/
def reLitCI (s : String) : RE :=
  reLitCIChars s.data

/-- One-or-more repetition `r+`. -/
def rePlus (r : RE) : RE :=
  .seq r (.star r)

/-- Optional occurrence `r?`. -/
def reOpt (r : RE) : RE :=
  .alt .eps r

/-- Concatenation of a pattern list. -/
def reCat : List RE → RE
  | [] => .eps
  | [r] => r
  | r :: rs => .seq r (reCat rs)

/-- Alternation `(a|b|…)` over a pattern list. -/
def reAlts : List RE → RE
  | [] => .cls (fun _ => false)
  | [r] => r
  | r :: rs => .alt r (reAlts rs)

/-- RE2 `\s*`. -/
def reWsStar : RE :=
  .star (.cls re2IsSpace)

/-- RE2 `\s+`. -/
def reWsPlus : RE :=
  rePlus (.cls re2IsSpace)

/-- RE2 `\w+`. -/
def reWordPlus : RE :=
  rePlus (.cls re2IsWord)

/-- RE2 `\d+`. -/
def reDigitPlus : RE :=
  rePlus (.cls Char.isDigit)

/-- RE2 `.` (any character except newline). -/
def reDotChar : RE :=
  .cls (fun c => c ≠ '\n')

/-- The character `{`. -/
def lbraceChar : Char := Char.ofNat 123

/-- The character `}`. -/
def rbraceChar : Char := Char.ofNat 125

/-! ## UTF-8 and SHA-1

`state.HashComment` calls `crypto/sha1` on the UTF-8 bytes of a formatted
string and hex-encodes the digest.  We embed SHA-1 over `Nat` with explicit
reduction modulo `2^32`. -/

/-- UTF-8 encoding of a single character, as byte values. -/
def utf8Bytes (c : Char) : List Nat :=
  let n := c.toNat
  if n < 0x80 then [n]
  else if n < 0x800 then [0xC0 + n / 64, 0x80 + n % 64]
  else if n < 0x10000 then
    [0xE0 + n / 4096, 0x80 + (n / 64) % 64, 0x80 + n % 64]
  else
    [0xF0 + n / 262144, 0x80 + (n / 4096) % 64, 0x80 + (n / 64) % 64,
     0x80 + n % 64]

/-- UTF-8 bytes of a string (what Go's `[]byte(s)` produces). -/
def strBytes (s : String) : List Nat :=
  s.data.flatMap utf8Bytes

/-- Byte length of a string, Go's `len(s)`. -/
def utf8Len (s : String) : Nat :=
  (strBytes s).length

/-- Modulus `2^32` of 32-bit words. -/
def m32 : Nat := 4294967296

/-- Left rotation of a 32-bit word by `k` bits. -/
def rotl (k x : Nat) : Nat :=
  (x * 2 ^ k + x / 2 ^ (32 - k)) % m32

/-- SHA-1 round function `f` for round index `i`. -/
def sha1F (i b c d : Nat) : Nat :=
  if i < 20 then (b &&& c) ||| ((b ^^^ (m32 - 1)) &&& d)
  else if i < 40 then b ^^^ c ^^^ d
  else if i < 60 then (b &&& c) ||| (b &&& d) ||| (c &&& d)
  else b ^^^ c ^^^ d

/-- SHA-1 round constant for round index `i`. -/
def sha1K (i : Nat) : Nat :=
  if i < 20 then 0x5A827999
  else if i < 40 then 0x6ED9EBA1
  else if i < 60 then 0x8F1BBCDC
  else 0xCA62C1D6

/-- Big-endian 32-bit words of a 64-byte block. -/
def sha1Words16 : List Nat → List Nat
  | b0 :: b1 :: b2 :: b3 :: rest =>
      (((b0 * 256 + b1) * 256 + b2) * 256 + b3) :: sha1Words16 rest
  | _ => []

/-- Message-schedule extension of the 16 block words to 80 words. -/
def sha1Extend (w : Array Nat) : Array Nat :=
  (List.range 64).foldl
    (fun a j =>
      a.push (rotl 1 ((a.getD (j + 13) 0) ^^^ (a.getD (j + 8) 0) ^^^
        (a.getD (j + 2) 0) ^^^ (a.getD j 0))))
    w

/-- The 80 SHA-1 rounds over one extended schedule. -/
def sha1Rounds (h : Nat × Nat × Nat × Nat × Nat) (w : Array Nat) :
    Nat × Nat × Nat × Nat × Nat :=
  (List.range 80).foldl
    (fun st i =>
      let (a, b, c, d, e) := st
      let t := (rotl 5 a + sha1F i b c d + e + sha1K i + w.getD i 0) % m32
      (t, a, rotl 30 b, c, d))
    h

/-- Merkle–Damgård padding: append `0x80`, zero bytes up to 56 mod 64, then
the 64-bit big-endian bit length. -/
def beBytes : Nat → Nat → List Nat
  | 0, _ => []
  | k + 1, v => (v / 256 ^ k) % 256 :: beBytes k v

/-- Padded message for SHA-1. -/
def sha1Pad (msg : List Nat) : List Nat :=
  let L := msg.length
  let zeros := (119 - L % 64) % 64
  msg ++ [0x80] ++ List.replicate zeros 0 ++ beBytes 8 (8 * L)

/-- Split a byte list into 64-byte chunks. -/
def splitChunks (l : List Nat) : List (List Nat) :=
  if l.isEmpty then []
  else l.take 64 :: splitChunks (l.drop 64)
termination_by l.length
decreasing_by
  simp only [List.isEmpty_iff] at *
  have hl : 0 < l.length := List.length_pos.mpr (by assumption)
  simp only [List.length_drop]
  omega

/-- SHA-1 digest (20 bytes) of a byte list. -/
def sha1Bytes (msg : List Nat) : List Nat :=
  let final := (splitChunks (sha1Pad msg)).foldl
    (fun h chunk =>
      let w := sha1Extend (Array.mk (sha1Words16 chunk))
      let r := sha1Rounds h w
      (((h.1 + r.1) % m32), ((h.2.1 + r.2.1) % m32), ((h.2.2.1 + r.2.2.1) % m32),
       ((h.2.2.2.1 + r.2.2.2.1) % m32), ((h.2.2.2.2 + r.2.2.2.2) % m32)))
    (0x67452301, 0xEFCDAB89, 0x98BADCFE, 0x10325476, 0xC3D2E1F0)
  beBytes 4 final.1 ++ beBytes 4 final.2.1 ++ beBytes 4 final.2.2.1 ++
    beBytes 4 final.2.2.2.1 ++ beBytes 4 final.2.2.2.2

/-- Lower-case hexadecimal digit. -/
def hexDigit (n : Nat) : Char :=
  if n < 10 then Char.ofNat (48 + n) else Char.ofNat (87 + n)

/-- Lower-case hexadecimal encoding of a byte list, Go's
`hex.EncodeToString`. -/
def hexEncode (bs : List Nat) : String :=
  String.mk (bs.flatMap (fun b => [hexDigit (b / 16), hexDigit (b % 16)]))

/-! ## Domain model (`internal/coderabbit/domain`)

`time.Time` fields that the claims never inspect (`CreatedAt`, the
`Timestamp` of a thought, `StartedAt`/`CompletedAt` of a review) are dropped;
`Comment.UpdatedAt` is embedded as its RFC-3339 rendering
(`updatedAtStr`), which is the only use the state store makes of it. -/

/-- Embedding of `domain.Comment`. -/
structure Comment where
  id : Int
  filePath : String
  lineNumber : Int
  endLine : Int
  body : String
  aiPrompt : String
  threadID : String
  author : String
  updatedAtStr : String
  url : String
  isResolved : Bool
  isNit : Bool
  isOutdated : Bool
  isOutsideDiff : Bool
deriving DecidableEq, Repr

/-- Embedding of `domain.CIAnnot` (per-location failure details). -/
structure CIAnnot where
  path : String
  startLine : Int
  endLine : Int
  title : String
  message : String
  rawDetails : String
deriving DecidableEq, Repr

/-- Embedding of `domain.CITestFailure`. -/
structure CITestFailure where
  checkName : String
  jobName : String
  appName : String
  errorMessage : String
  summary : String
  logURL : String
  annots : List CIAnnot
deriving DecidableEq, Repr

/-- Embedding of `domain.CIStatus`.  The `codeRabbitFound` and
`codeRabbitCompleted` flags are assigned by the CI adapter
(`adapters/github_ci.go`) when it recognises the CodeRabbit check run. -/
structure CIStatus where
  failures : List CITestFailure
  pendingCount : Int
  pendingNames : List String
  passedCount : Int
  totalCount : Int
  codeRabbitFound : Bool
  codeRabbitCompleted : Bool
deriving DecidableEq, Repr

/-- Zero value of `CIStatus` (Go's `domain.CIStatus{}`). -/
def emptyCIStatus : CIStatus :=
  ⟨[], 0, [], 0, 0, false, false⟩

/-- Embedding of `CIStatus.AllComplete`. -/
def CIStatus.AllComplete (s : CIStatus) : Bool :=
  s.pendingCount = 0

/-- Embedding of `CIStatus.AllPassed`. -/
def CIStatus.AllPassed (s : CIStatus) : Bool :=
  s.AllComplete && s.failures.length = 0

/-- Embedding of `domain.ThoughtType`. -/
inductive ThoughtType where
  | thinking
  | suggestion
  | analysis
  | code
  | progress
  | comment
  | header
deriving DecidableEq, Repr

/-- Embedding of `domain.ThoughtChunk` (`Type` is a Lean keyword, hence
`ttype`). -/
structure ThoughtChunk where
  content : String
  ttype : ThoughtType
  file : String
deriving DecidableEq, Repr

/-- Embedding of `ThoughtChunk.IsDisplayable`. -/
def ThoughtChunk.IsDisplayable (t : ThoughtChunk) : Bool :=
  t.ttype ≠ ThoughtType.code

/-- Embedding of `domain.ReviewStatus`. -/
inductive ReviewStatus where
  | pending
  | fetching
  | reviewing
  | completed
  | satisfied
  | failed
deriving DecidableEq, Repr

/-- Embedding of `domain.Review`.  The `TotalFoundCount`, `NewCommentsCount`,
`AlreadyAddressed`, `CIPending…`, `CIAllComplete` and `CodeRabbit…` fields
are declared here as the service layer (`review_service.go`,
`cmd/dtools/review.go`) reads and writes them. -/
structure Review where
  id : String
  prNumber : Int
  repository : String
  branch : String
  baseBranch : String
  headCommit : String
  baseCommit : String
  title : String
  author : String
  status : ReviewStatus
  comments : List Comment
  ciFailures : List CITestFailure
  thoughts : List ThoughtChunk
  processedCount : Int
  remainingCount : Int
  currentFile : String
  satisfied : Bool
  totalFoundCount : Int
  newCommentsCount : Int
  alreadyAddressed : Int
  ciPendingCount : Int
  ciPendingNames : List String
  ciAllComplete : Bool
  codeRabbitFound : Bool
  codeRabbitCompleted : Bool
deriving DecidableEq, Repr

/-- Embedding of `domain.generateID`. -/
def generateID (prNumber : Int) (repository : String) : String :=
  repository ++ "#" ++ toString prNumber

/-- Embedding of `domain.NewReview` (zero values for every other field). -/
def NewReview (prNumber : Int) (repository : String) : Review where
  id := generateID prNumber repository
  prNumber := prNumber
  repository := repository
  branch := ""
  baseBranch := ""
  headCommit := ""
  baseCommit := ""
  title := ""
  author := ""
  status := .pending
  comments := []
  ciFailures := []
  thoughts := []
  processedCount := 0
  remainingCount := 0
  currentFile := ""
  satisfied := false
  totalFoundCount := 0
  newCommentsCount := 0
  alreadyAddressed := 0
  ciPendingCount := 0
  ciPendingNames := []
  ciAllComplete := false
  codeRabbitFound := false
  codeRabbitCompleted := false

/-- Embedding of `Review.MarkCompleted` (the wall-clock `CompletedAt` stamp
is not modelled). -/
def Review.MarkCompleted (r : Review) : Review :=
  { r with status := .completed }

/-- Embedding of `Review.MarkSatisfied`. -/
def Review.MarkSatisfied (r : Review) : Review :=
  { r with status := .satisfied, satisfied := true }

/-- Embedding of `Review.MarkFailed`. -/
def Review.MarkFailed (r : Review) : Review :=
  { r with status := .failed }

/-- Embedding of `Review.AddThought`. -/
def Review.AddThought (r : Review) (t : ThoughtChunk) : Review :=
  { r with thoughts := r.thoughts ++ [t] }

/-! ## Dedup state store (`internal/coderabbit/state/state.go`)

The JSON file under the user's configuration directory is embedded as an
abstract `StateFile`; `os.Stat`/`os.ReadFile`/`json.Unmarshal` outcomes
become its constructors, and a successful `Save` produces `stored`.  The Go
`map[int]SeenInfo` is embedded as an association list updated in place. -/

/-- Embedding of `state.SeenInfo`. -/
structure SeenInfo where
  updatedAt : String
  bodyHash : String
deriving DecidableEq, Repr

/-- Embedding of `state.TrackerState`. -/
structure TrackerState where
  processedCommentIDs : List Int
  processedByHash : List String
  seenComments : List (Int × SeenInfo)
  lastReviewTimestamp : String
deriving DecidableEq, Repr

/-- Zero-valued tracker state (fresh `state.TrackerState`). -/
def emptyTrackerState : TrackerState :=
  ⟨[], [], [], ""⟩

/-- Embedding of `state.TrackerData` (`map[string]*TrackerState`). -/
def TrackerData : Type :=
  String → Option TrackerState

/-- Empty `TrackerData` map. -/
def emptyTrackerData : TrackerData :=
  fun _ => none

/-- Go map write `m[k] = v` on the `SeenComments` association list. -/
def seenInsert (m : List (Int × SeenInfo)) (k : Int) (v : SeenInfo) :
    List (Int × SeenInfo) :=
  if m.any (fun p => p.1 = k) then
    m.map (fun p => if p.1 = k then (k, v) else p)
  else m ++ [(k, v)]

/-- Go map read `m[k]` on the `SeenComments` association list. -/
def seenLookup (m : List (Int × SeenInfo)) (k : Int) : Option SeenInfo :=
  (m.find? (fun p => p.1 = k)).map (fun p => p.2)

/-- Embedding of `state.HashComment`: SHA-1 of `filePath|line|body` with the
empty path normalised to `GENERAL`, hex-encoded. -/
def HashComment (filePath : String) (line : Int) (body : String) : String :=
  let fp := if filePath = "" then "GENERAL" else filePath
  hexEncode (sha1Bytes (strBytes (fp ++ "|" ++ toString line ++ "|" ++ body)))

/-- Embedding of `state.GetStateKey`. -/
def GetStateKey (owner repo : String) (pr : Int) : String :=
  owner ++ "/" ++ repo ++ "#" ++ toString pr

/-- Abstract disk state of the store's JSON file as seen by one load:
missing (`os.IsNotExist`), unreadable (`os.ReadFile` fails), corrupt
(`json.Unmarshal` fails), or readable with contents `d`. -/
inductive StateFile where
  | missing : StateFile
  | unreadable : StateFile
  | corrupt : StateFile
  | stored (d : TrackerData) : StateFile

/-- Embedding of `state.Load`: an absent file yields an empty map and no
error; read/parse failures yield errors. -/
def Load : StateFile → Except String TrackerData
  | .missing => .ok emptyTrackerData
  | .unreadable => .error "failed to read state file"
  | .corrupt => .error "failed to parse state file"
  | .stored d => .ok d

/-- Embedding of `state.Save` (a successful write; write failures are not
needed by the claims under verification). -/
def Save (d : TrackerData) : StateFile :=
  .stored d

/-- Embedding of `state.GetOrCreate`: load, then default the PR's entry to a
zero-valued state. -/
def GetOrCreate (key : String) (f : StateFile) : Except String TrackerState :=
  match Load f with
  | .error e => .error e
  | .ok d => .ok ((d key).getD emptyTrackerState)

/-- Embedding of `state.IsCommentProcessed`: processed by ID or by content
fingerprint. -/
def IsCommentProcessed (state : TrackerState) (comment : Comment) : Bool :=
  let hash := HashComment comment.filePath comment.lineNumber comment.body
  state.processedCommentIDs.contains comment.id ||
    state.processedByHash.contains hash

/-- Embedding of `state.HasCommentChanged` (informational only; the zero
`time.Time` check is embedded as the empty rendered timestamp). -/
def HasCommentChanged (state : TrackerState) (comment : Comment) : Bool :=
  match seenLookup state.seenComments comment.id with
  | none => true
  | some seen =>
      (comment.updatedAtStr ≠ "" && seen.updatedAt ≠ comment.updatedAtStr) ||
      seen.bodyHash ≠ HashComment comment.filePath comment.lineNumber comment.body

/-- Append `x` unless already present; the loop body of `state.MarkProcessed`
for the processed-ID list. -/
def addIdIfAbsent (l : List Int) (x : Int) : List Int :=
  if l.contains x then l else l ++ [x]

/-- Append `h` unless already present; the loop body of `state.MarkProcessed`
for the processed-fingerprint list. -/
def addHashIfAbsent (l : List String) (h : String) : List String :=
  if l.contains h then l else l ++ [h]

/-- Per-comment body of `state.MarkProcessed`'s loop: merge the ID and the
fingerprint, then overwrite the last-seen info. -/
def markOne (s : TrackerState) (c : Comment) : TrackerState :=
  let hash := HashComment c.filePath c.lineNumber c.body
  { s with
    processedCommentIDs := addIdIfAbsent s.processedCommentIDs c.id
    processedByHash := addHashIfAbsent s.processedByHash hash
    seenComments := seenInsert s.seenComments c.id ⟨c.updatedAtStr, hash⟩ }

/-- The full comment loop of `state.MarkProcessed`. -/
def markList (s : TrackerState) (cs : List Comment) : TrackerState :=
  cs.foldl markOne s

/-- State-level effect of `state.MarkProcessed` on one PR's entry, including
the optional review-timestamp stamp. -/
def markProcessedState (s : TrackerState) (cs : List Comment) (ts : String) :
    TrackerState :=
  let s' := markList s cs
  if ts ≠ "" then { s' with lastReviewTimestamp := ts } else s'

/-- Map-level effect of `state.MarkProcessed`: default the entry, run the
loop, store the entry back. -/
def markProcessedData (d : TrackerData) (key : String) (cs : List Comment)
    (ts : String) : TrackerData :=
  let s := (d key).getD emptyTrackerState
  let s' := markProcessedState s cs ts
  fun k => if k = key then some s' else d k

/-- Embedding of `state.MarkProcessed`: load, merge, save; a load failure
returns the error with the file untouched. -/
def MarkProcessed (key : String) (cs : List Comment) (ts : String)
    (f : StateFile) : Except String StateFile :=
  match Load f with
  | .error e => .error e
  | .ok d => .ok (Save (markProcessedData d key cs ts))

/-- Embedding of `state.Reset`: load, delete the PR's entry, save. -/
def Reset (key : String) (f : StateFile) : Except String StateFile :=
  match Load f with
  | .error e => .error e
  | .ok d => .ok (Save (fun k => if k = key then none else d k))

/-- Embedding of `state.FilterUnprocessed`: keep comments whose
`IsCommentProcessed` is false, order preserved. -/
def FilterUnprocessed (state : TrackerState) (comments : List Comment) :
    List Comment :=
  comments.filter (fun c => !IsCommentProcessed state c)

/-- Disk contents after `state.MarkProcessed` runs, keeping the file as it
was when the call returns an error (the Go caller ignores that error). -/
def applyMark (key : String) (cs : List Comment) (ts : String)
    (f : StateFile) : StateFile :=
  match MarkProcessed key cs ts f with
  | .ok f' => f'
  | .error _ => f

/-- The stored tracker state of one key, if the file is readable. -/
def storedStateOf (f : StateFile) (key : String) : Option TrackerState :=
  match Load f with
  | .ok d => d key
  | .error _ => none

/-! ## Thought stream filter (`adapters/claude_stream_parser.go`)

The code-detection patterns are fixed RE2 expressions checked with
`MatchString`; patterns 1–6 are `^`-anchored, pattern 7 is `^…$`-anchored.
Each Lean pattern value is annotated with the Go pattern source. -/

/-- Pattern `^\s*(import|export|from)\s+`. -/
def codePat1 : RE :=
  reCat [reWsStar, reAlts [reLit "import", reLit "export", reLit "from"],
    reWsPlus]

/-- Pattern `^\s*(function|class|const|let|var|def|async|await)\s+\w+`. -/
def codePat2 : RE :=
  reCat [reWsStar,
    reAlts [reLit "function", reLit "class", reLit "const", reLit "let",
      reLit "var", reLit "def", reLit "async", reLit "await"],
    reWsPlus, reWordPlus]

/-- Pattern `^\s*(if|else|for|while|switch|case|return|try|catch)\s*[\(\{]?`. -/
def codePat3 : RE :=
  reCat [reWsStar,
    reAlts [reLit "if", reLit "else", reLit "for", reLit "while",
      reLit "switch", reLit "case", reLit "return", reLit "try",
      reLit "catch"],
    reWsStar, reOpt (.cls (fun c => c = '(' || c = lbraceChar))]

/-- Pattern `^\s*\d+→` (line-number-prefixed file dump). -/
def codePat4 : RE :=
  reCat [reWsStar, reDigitPlus, reLit "→"]

/-- Pattern `^\s*(package|module)\s+\w+`. -/
def codePat5 : RE :=
  reCat [reWsStar, reAlts [reLit "package", reLit "module"], reWsPlus,
    reWordPlus]

/-- Pattern `^\s*(type|interface|struct|enum)\s+\w+`. -/
def codePat6 : RE :=
  reCat [reWsStar,
    reAlts [reLit "type", reLit "interface", reLit "struct", reLit "enum"],
    reWsPlus, reWordPlus]

/-- Pattern `^\s*[\{\[].*[\}\]]\s*$` (a line that is entirely a JSON-like
object or array). -/
def codePat7 : RE :=
  reCat [reWsStar, .cls (fun c => c = lbraceChar || c = '['),
    .star reDotChar, .cls (fun c => c = rbraceChar || c = ']'), reWsStar]

/-- The compiled `codePatterns` list of the stream filter, as Boolean
matchers on the line. -/
def codePatterns : List (List Char → Bool) :=
  [matchHere codePat1, matchHere codePat2, matchHere codePat3,
   matchHere codePat4, matchHere codePat5, matchHere codePat6,
   matchFull codePat7]

/-- Embedding of `ClaudeStreamParser.isCode`: empty lines are not code; lines
longer than 500 bytes are code; otherwise a line is code when one of the
patterns matches or the line is brace- or bracket-delimited. -/
def isCode (line : String) : Bool :=
  if trimSpace line = "" then false
  else if 500 < utf8Len line then true
  else if codePatterns.any (fun m => m line.data) then true
  else if strHasLead line "\x7b" && strHasTail line "\x7d" then true
  else if strHasLead line "[" && strHasTail line "]" then true
  else false

/-- Does the lower-cased line contain any of the given words?  The `||`
chains of `classifyThought`. -/
def containsAny (lower : String) (subs : List String) : Bool :=
  subs.any (fun w => strContains lower w)

/-- Embedding of `ClaudeStreamParser.classifyThought`. -/
def classifyThought (line : String) : ThoughtType :=
  let lower := strToLower line
  if containsAny lower ["analyzing", "reviewing", "checking", "looking at",
      "examining"] then
    .progress
  else if containsAny lower ["suggest", "recommend", "consider", "should",
      "could"] then
    .suggestion
  else if containsAny lower ["this is", "the issue", "the problem",
      "because", "since"] then
    .analysis
  else
    .thinking

/-! ### Captured file references

`extractFileReference` uses `FindStringSubmatch`, so the one capture group of
each pattern must be embedded too.  The three patterns use only literals,
single-character classes, `X+`, and `X?`; the matcher below implements Go's
leftmost-first semantics for exactly those constructs, threading the captured
characters. -/

/-- Capturing-pattern components: single class, greedy `class+`, greedy
`class?`, literal, literal alternation (left to right), and the capture-group
delimiters. -/
inductive CRE where
  | one (p : Char → Bool) : CRE
  | many (p : Char → Bool) : CRE
  | optOne (p : Char → Bool) : CRE
  | lit (cs : List Char) : CRE
  | alts (ws : List (List Char)) : CRE
  | capStart : CRE
  | capEnd : CRE

/-- First result of an option-valued function over a list, in order. -/
def firstSome (f : α → Option β) : List α → Option β
  | [] => none
  | x :: xs =>
      match f x with
      | some b => some b
      | none => firstSome f xs

/-- All nonempty `class+` splits of the input, longest first (greedy order
with backtracking). -/
def greedySplits (p : Char → Bool) (l : List Char) :
    List (List Char × List Char) :=
  let run := l.takeWhile p
  let rest := l.drop run.length
  (List.range run.length).map
    (fun i => (run.take (run.length - i), run.drop (run.length - i) ++ rest))

/-- Leftmost-first matcher for a capturing pattern against a prefix of the
input; `cap` says whether we are inside the capture group, `acc` accumulates
the captured characters. -/
def cmatchGo : List CRE → List Char → Bool → List Char → Option (List Char)
  | [], _, _, acc => some acc
  | CRE.capStart :: rest, l, _, acc => cmatchGo rest l true acc
  | CRE.capEnd :: rest, l, _, acc => cmatchGo rest l false acc
  | CRE.one _ :: _, [], _, _ => none
  | CRE.one p :: rest, c :: l, cap, acc =>
      if p c then cmatchGo rest l cap (if cap then acc ++ [c] else acc)
      else none
  | CRE.optOne _ :: rest, [], cap, acc => cmatchGo rest [] cap acc
  | CRE.optOne p :: rest, c :: l, cap, acc =>
      if p c then
        match cmatchGo rest l cap (if cap then acc ++ [c] else acc) with
        | some r => some r
        | none => cmatchGo rest (c :: l) cap acc
      else cmatchGo rest (c :: l) cap acc
  | CRE.lit cs :: rest, l, cap, acc =>
      if cs.isPrefixOf l then
        cmatchGo rest (l.drop cs.length) cap (if cap then acc ++ cs else acc)
      else none
  | CRE.alts ws :: rest, l, cap, acc =>
      firstSome
        (fun w =>
          if w.isPrefixOf l then
            cmatchGo rest (l.drop w.length) cap (if cap then acc ++ w else acc)
          else none)
        ws
  | CRE.many p :: rest, l, cap, acc =>
      firstSome
        (fun sp => cmatchGo rest sp.2 cap (if cap then acc ++ sp.1 else acc))
        (greedySplits p l)

/-- Leftmost (earliest-start) search returning the capture of the first
match, the semantics of Go's `FindStringSubmatch`'s group 1. -/
def csearch (pat : List CRE) : List Char → Option (List Char)
  | [] => cmatchGo pat [] false []
  | c :: t =>
      match cmatchGo pat (c :: t) false [] with
      | some cap => some cap
      | none => csearch pat t

/-- Character class `[a-zA-Z0-9_\-./]` of the file-reference patterns. -/
def isFilePathChar (c : Char) : Bool :=
  c.isAlphanum || c = '_' || c = '-' || c = '.' || c = '/'

/-- Quote class of the file-reference patterns: a double quote or a
backquote (U+0060). -/
def isQuoteChar (c : Char) : Bool :=
  c = '"' || c = Char.ofNat 96

/-- Capture sub-pattern `([a-zA-Z0-9_\-./]+\.[a-zA-Z]+)`. -/
def fileCapture : List CRE :=
  [CRE.capStart, CRE.many isFilePathChar, CRE.lit ['.'],
   CRE.many Char.isAlpha, CRE.capEnd]

/-- File pattern `(?:in|at|file)\s+["‵]?([a-zA-Z0-9_\-./]+\.[a-zA-Z]+)["‵]?`
(the quote class holds a double quote and a backquote). -/
def filePat1 : List CRE :=
  [CRE.alts ["in".data, "at".data, "file".data], CRE.many re2IsSpace,
   CRE.optOne isQuoteChar] ++ fileCapture ++ [CRE.optOne isQuoteChar]

/-- File pattern `([a-zA-Z0-9_\-./]+\.[a-zA-Z]+):\d+`. -/
def filePat2 : List CRE :=
  fileCapture ++ [CRE.lit [':'], CRE.many Char.isDigit]

/-- File pattern `\*\*([a-zA-Z0-9_\-./]+\.[a-zA-Z]+)\*\*`. -/
def filePat3 : List CRE :=
  [CRE.lit "**".data] ++ fileCapture ++ [CRE.lit "**".data]

/-- Embedding of `ClaudeStreamParser.extractFileReference`: first pattern,
in order, that matches returns its capture; otherwise the empty string. -/
def extractFileReference (line : String) : String :=
  match firstSome (fun pat => csearch pat line.data)
      [filePat1, filePat2, filePat3] with
  | some cap => String.mk cap
  | none => ""

/-- Mutable state of the stream filter that `processLine` touches (the text
buffer is handled by the chunk loop, not by `processLine`). -/
structure StreamFilterState where
  currentFile : String
deriving DecidableEq, Repr

/-- Embedding of `ClaudeStreamParser.processLine`: trim; drop blank lines and
code lines; classify; remember a file reference; emit the thought tagged
with the current file. -/
def processLine (ps : StreamFilterState) (line : String) :
    Option ThoughtChunk × StreamFilterState :=
  let trimmed := trimSpace line
  if trimmed = "" then (none, ps)
  else if isCode trimmed then (none, ps)
  else
    let thoughtType := classifyThought trimmed
    let ps' :=
      match extractFileReference trimmed with
      | "" => ps
      | file => { currentFile := file }
    (some ⟨trimmed, thoughtType, ps'.currentFile⟩, ps')

/-! ## Satisfaction detector (`service/prompt.go`, `SatisfactionDetector`)

Go computes the confidence in `float64`; for the small integer scores
produced here the correctly-rounded `float64` quotient compares to `0.6`
exactly as the rational quotient does, so the confidence is embedded as `ℚ`.
Each pattern value is annotated with its Go source (the annotation string is
also what `pattern.String()` contributes to the reasons lists). -/

/-- Result of a satisfaction analysis, `service.SatisfactionResult`. -/
structure SatisfactionResult where
  isSatisfied : Bool
  confidence : ℚ
  reasons : List String
  actionRequired : List String
deriving DecidableEq, Repr

/-- The detector's `satisfactionPatterns`, each with its Go pattern
source. -/
def satisfactionPatterns : List (String × RE) :=
  [("(?i)looks?\\s+good",
    reCat [reLitCI "look", reOpt (reChCI 's'), reWsPlus, reLitCI "good"]),
   ("(?i)LGTM", reLitCI "lgtm"),
   ("(?i)approved?", reCat [reLitCI "approve", reOpt (reChCI 'd')]),
   ("(?i)ready\\s+to\\s+merge",
    reCat [reLitCI "ready", reWsPlus, reLitCI "to", reWsPlus,
      reLitCI "merge"]),
   ("(?i)no\\s+(further\\s+)?issues?",
    reCat [reLitCI "no", reWsPlus, reOpt (reCat [reLitCI "further", reWsPlus]),
      reLitCI "issue", reOpt (reChCI 's')]),
   ("(?i)no\\s+(more\\s+)?comments?",
    reCat [reLitCI "no", reWsPlus, reOpt (reCat [reLitCI "more", reWsPlus]),
      reLitCI "comment", reOpt (reChCI 's')]),
   ("(?i)all\\s+addressed",
    reCat [reLitCI "all", reWsPlus, reLitCI "addressed"]),
   ("(?i)nothing\\s+(else\\s+)?to\\s+(add|review)",
    reCat [reLitCI "nothing", reWsPlus,
      reOpt (reCat [reLitCI "else", reWsPlus]), reLitCI "to", reWsPlus,
      reAlts [reLitCI "add", reLitCI "review"]]),
   ("(?i)changes?\\s+look\\s+good",
    reCat [reLitCI "change", reOpt (reChCI 's'), reWsPlus, reLitCI "look",
      reWsPlus, reLitCI "good"]),
   ("(?i)✅.*addressed",
    reCat [reLit "✅", .star reDotChar, reLitCI "addressed"]),
   ("(?i)✅.*fixed",
    reCat [reLit "✅", .star reDotChar, reLitCI "fixed"])]

/-- The detector's `actionRequiredPatterns`, each with its Go pattern
source. -/
def actionRequiredPatterns : List (String × RE) :=
  [("(?i)needs?\\s+(to\\s+)?(be\\s+)?(change|fix|update|address|review)",
    reCat [reLitCI "need", reOpt (reChCI 's'), reWsPlus,
      reOpt (reCat [reLitCI "to", reWsPlus]),
      reOpt (reCat [reLitCI "be", reWsPlus]),
      reAlts [reLitCI "change", reLitCI "fix", reLitCI "update",
        reLitCI "address", reLitCI "review"]]),
   ("(?i)should\\s+(be\\s+)?(change|fix|update|address)",
    reCat [reLitCI "should", reWsPlus, reOpt (reCat [reLitCI "be", reWsPlus]),
      reAlts [reLitCI "change", reLitCI "fix", reLitCI "update",
        reLitCI "address"]]),
   ("(?i)must\\s+(be\\s+)?(change|fix|update|address)",
    reCat [reLitCI "must", reWsPlus, reOpt (reCat [reLitCI "be", reWsPlus]),
      reAlts [reLitCI "change", reLitCI "fix", reLitCI "update",
        reLitCI "address"]]),
   ("(?i)requires?\\s+(change|fix|update|attention)",
    reCat [reLitCI "require", reOpt (reChCI 's'), reWsPlus,
      reAlts [reLitCI "change", reLitCI "fix", reLitCI "update",
        reLitCI "attention"]]),
   ("(?i)please\\s+(change|fix|update|address|review)",
    reCat [reLitCI "please", reWsPlus,
      reAlts [reLitCI "change", reLitCI "fix", reLitCI "update",
        reLitCI "address", reLitCI "review"]]),
   ("(?i)still\\s+(has|have|need)",
    reCat [reLitCI "still", reWsPlus,
      reAlts [reLitCI "has", reLitCI "have", reLitCI "need"]]),
   ("(?i)not\\s+(yet\\s+)?(address|fix|resolved)",
    reCat [reLitCI "not", reWsPlus, reOpt (reCat [reLitCI "yet", reWsPlus]),
      reAlts [reLitCI "address", reLitCI "fix", reLitCI "resolved"]]),
   ("(?i)issue\\s+remain",
    reCat [reLitCI "issue", reWsPlus, reLitCI "remain"]),
   ("(?i)bug\\s+(in|found|detected)",
    reCat [reLitCI "bug", reWsPlus,
      reAlts [reLitCI "in", reLitCI "found", reLitCI "detected"]])]

/-- The detector's explicit satisfaction keywords (each hit weighted 2). -/
def satisfactionKeywords : List String :=
  ["SATISFIED", "COMPLETE", "DONE", "APPROVED", "SHIP IT"]

/-- The detector's issue keywords (each hit weighted 1). -/
def issueKeywords : List String :=
  ["TODO", "FIXME", "BUG", "ERROR", "FAIL", "ISSUE", "PROBLEM"]

/-- Embedding of `SatisfactionDetector.getRecentThoughts`. -/
def getRecentThoughts (thoughts : List ThoughtChunk) (n : Nat) :
    List ThoughtChunk :=
  if thoughts.length ≤ n then thoughts
  else thoughts.drop (thoughts.length - n)

/-- Embedding of `SatisfactionDetector.combineThoughts`. -/
def combineThoughts (thoughts : List ThoughtChunk) : String :=
  joinWith "\n" (thoughts.map (fun t => t.content))

/-- Shape of each scoring loop of `AnalyzeReview`: for every hit, add
`weight` to the score and append a note to the reason list. -/
def signalFold (hit : α → Bool) (weight : Nat) (note : α → String)
    (xs : List α) (acc : Nat × List String) : Nat × List String :=
  xs.foldl
    (fun acc x => if hit x then (acc.1 + weight, acc.2 ++ [note x]) else acc)
    acc

/-- Embedding of `SatisfactionDetector.AnalyzeReview`: count satisfaction
patterns (1 each), satisfaction keywords (2 each), action patterns and issue
keywords (1 each) over the concatenated recent-20 thought text; confidence is
the satisfaction share (0.5 when there is no signal); the verdict needs a
satisfaction score of at least 2, strictly above the action score, and a
confidence above 0.6. -/
def AnalyzeReview (review : Review) : SatisfactionResult :=
  let recentThoughts := getRecentThoughts review.thoughts 20
  let thoughtsText := combineThoughts recentThoughts
  let sat1 := signalFold (fun pr => reSearch pr.2 thoughtsText.data) 1
    (fun pr => "Found satisfaction pattern: " ++ pr.1)
    satisfactionPatterns (0, [])
  let upper := strToUpper thoughtsText
  let sat2 := signalFold (fun kw => strContains upper kw) 2
    (fun kw => "Found satisfaction keyword: " ++ kw)
    satisfactionKeywords sat1
  let act1 := signalFold (fun pr => reSearch pr.2 thoughtsText.data) 1
    (fun pr => "Found action pattern: " ++ pr.1)
    actionRequiredPatterns (0, [])
  let act2 := signalFold (fun kw => strContains upper kw) 1
    (fun kw => "Found issue keyword: " ++ kw)
    issueKeywords act1
  let satisfactionScore := sat2.1
  let actionScore := act2.1
  let totalSignals := satisfactionScore + actionScore
  let confidence : ℚ :=
    if totalSignals = 0 then 1 / 2
    else (satisfactionScore : ℚ) / (totalSignals : ℚ)
  { isSatisfied :=
      decide (2 ≤ satisfactionScore) && decide (actionScore < satisfactionScore)
        && decide ((3 : ℚ) / 5 < confidence)
    confidence := confidence
    reasons := sat2.2
    actionRequired := act2.2 }

/-- Embedding of `Comment.Location`. -/
def Comment.Location (c : Comment) : String :=
  if c.filePath = "" then "GENERAL"
  else if c.lineNumber = 0 then c.filePath
  else c.filePath ++ ":" ++ toString c.lineNumber

/-- Embedding of `SatisfactionDetector.AnalyzeCodeRabbitReview`. -/
def AnalyzeCodeRabbitReview (comments : List Comment) : SatisfactionResult :=
  if comments.length = 0 then
    ⟨true, 1, ["No CodeRabbit comments remaining"], []⟩
  else
    let resolvedCount := (comments.filter (fun c => c.isResolved)).length
    let unresolved := comments.filter (fun c => !c.isResolved)
    let unresolvedCount := unresolved.length
    let actionRequired :=
      unresolved.map (fun c => "Unresolved comment on " ++ c.Location)
    let totalComments := resolvedCount + unresolvedCount
    if totalComments = 0 then ⟨true, 1, [], actionRequired⟩
    else
      let confidence : ℚ := (resolvedCount : ℚ) / (totalComments : ℚ)
      let isSat := decide (unresolvedCount = 0)
      ⟨isSat, confidence,
       if isSat then ["All CodeRabbit comments resolved"] else [],
       actionRequired⟩

/-- Embedding of `ReviewService.CheckSatisfaction`: thought analysis, and —
when the comment re-fetch succeeds (`refetch = some comments`) — the
AND-combination with the remote-comment analysis at averaged confidence. -/
def CheckSatisfaction (review : Review) (refetch : Option (List Comment)) :
    SatisfactionResult :=
  let thoughtResult := AnalyzeReview review
  match refetch with
  | none => thoughtResult
  | some comments =>
      let commentResult := AnalyzeCodeRabbitReview comments
      ⟨thoughtResult.isSatisfied && commentResult.isSatisfied,
       (thoughtResult.confidence + commentResult.confidence) / 2,
       thoughtResult.reasons ++ commentResult.reasons,
       thoughtResult.actionRequired ++ commentResult.actionRequired⟩

/-! ## Review orchestrator (`service/review_service.go`, `StartReview`)

The remote collaborators (`GitHubClient`, `CIProvider`, `AIProvider`) and the
state file are gathered into a `ReviewEnv` record holding the outcome of each
call a single `StartReview` run makes; `StartReview` is then a pure function
of the environment and the configuration. -/

/-- Embedding of `service.ReviewConfig` (`MaxDiffMb` is only forwarded to the
diff fetcher, which no claim touches). -/
structure ReviewConfig where
  prNumber : Int
  includeNits : Bool
  includeOutdated : Bool
  resetState : Bool
  markAddressed : Bool
deriving DecidableEq, Repr

/-- Embedding of `ports.PullRequest` (the fields `StartReview` copies). -/
structure PullRequest where
  branch : String
  baseBranch : String
  headCommit : String
  baseCommit : String
  title : String
  author : String
deriving DecidableEq, Repr

/-- Outcome of `ListCodeRabbitComments`: success, a `ReviewError` with code
`ErrCodeNoComments` (treated as "no comments", the returned slice is kept),
or any other error (fatal). -/
inductive CommentsResult where
  | ok (cs : List Comment)
  | errNoComments (cs : List Comment)
  | errOther
deriving Repr

/-- The comment list `StartReview` continues with, `none` when the fetch
error is fatal. -/
def effComments : CommentsResult → Option (List Comment)
  | .ok cs => some cs
  | .errNoComments cs => some cs
  | .errOther => none

/-- Environment of one `StartReview` run: results of the remote calls plus
the state file on disk. -/
structure ReviewEnv where
  repoInfo : Except String (String × String)
  stateFile : StateFile
  pullRequest : Except String PullRequest
  commentsFetch : CommentsResult
  ciStatusFetch : Except String CIStatus
  streamReviewOk : Bool

/-- CI status `StartReview` continues with: the fetched one, or the zero
value when the fetch fails (CI status is optional). -/
def effCIStatus (env : ReviewEnv) : CIStatus :=
  match env.ciStatusFetch with
  | .ok s => s
  | .error _ => emptyCIStatus

/-- Disk contents after `state.Reset`, keeping the file on error (the caller
discards the error). -/
def applyReset (key : String) (f : StateFile) : StateFile :=
  match Reset key f with
  | .ok f' => f'
  | .error _ => f

/-- The state file after the optional `config.ResetState` reset (a failed
reset leaves the file untouched and is ignored). -/
def effStateFile (env : ReviewEnv) (config : ReviewConfig) (key : String) :
    StateFile :=
  if config.resetState then applyReset key env.stateFile else env.stateFile

/-- The tracker state `StartReview` works with: `state.GetOrCreate`, falling
back to a zero-valued in-memory state when loading fails (non-fatal). -/
def startTracker (env : ReviewEnv) (config : ReviewConfig) (key : String) :
    TrackerState :=
  match GetOrCreate key (effStateFile env config key) with
  | .ok s => s
  | .error _ => emptyTrackerState

/-- Embedding of `ReviewService.filterComments`: drop excluded nitpicks,
excluded outdated comments, and resolved comments. -/
def filterComments (comments : List Comment) (config : ReviewConfig) :
    List Comment :=
  comments.filter (fun c =>
    !(c.isNit && !config.includeNits) &&
    !(c.isOutdated && !config.includeOutdated) &&
    !c.isResolved)

/-- The thought-stream value `StartReview` returns: Go `nil` or a live
channel. -/
inductive ThoughtStreamHandle where
  | nil
  | live
deriving DecidableEq, Repr

/-- Result of one `StartReview` call.  `agentInvoked` records whether the
control flow reached the `aiProvider.StreamReview` call. -/
structure StartReviewResult where
  review : Option Review
  thoughtStream : ThoughtStreamHandle
  failed : Bool
  agentInvoked : Bool
deriving DecidableEq, Repr

/-- Embedding of `ReviewService.StartReview` (the spec's `runReviewCycle`):
resolve identity, optionally reset and then load dedup state, fetch PR
metadata and comments, apply the config filter then the dedup filter, fetch
CI status (empty on error), take the satisfied fast path when nothing is
outstanding, otherwise invoke the agent.  The prompt string and the spawned
tracking goroutine (embedded separately as `trackedStreamTrace`) do not
affect this result. -/
def StartReview (env : ReviewEnv) (config : ReviewConfig) :
    StartReviewResult :=
  match env.repoInfo with
  | .error _ => ⟨none, .nil, true, false⟩
  | .ok (owner, repo) =>
      let repository := owner ++ "/" ++ repo
      let stateKey := GetStateKey owner repo config.prNumber
      let trackerState := startTracker env config stateKey
      let review :=
        { NewReview config.prNumber repository with status := .fetching }
      match env.pullRequest with
      | .error _ => ⟨none, .nil, true, false⟩
      | .ok pr =>
          let review :=
            { review with
              branch := pr.branch
              baseBranch := pr.baseBranch
              headCommit := pr.headCommit
              baseCommit := pr.baseCommit
              title := pr.title
              author := pr.author }
          match effComments env.commentsFetch with
          | none => ⟨none, .nil, true, false⟩
          | some comments =>
              let filteredComments := filterComments comments config
              let review :=
                { review with
                  totalFoundCount := (filteredComments.length : Int) }
              let unprocessedComments :=
                FilterUnprocessed trackerState filteredComments
              let review :=
                { review with
                  comments := unprocessedComments
                  remainingCount := (unprocessedComments.length : Int)
                  newCommentsCount := (unprocessedComments.length : Int)
                  alreadyAddressed := (filteredComments.length : Int) -
                    (unprocessedComments.length : Int) }
              let ciStatus := effCIStatus env
              let review :=
                { review with
                  ciFailures := ciStatus.failures
                  ciPendingCount := ciStatus.pendingCount
                  ciPendingNames := ciStatus.pendingNames
                  ciAllComplete := ciStatus.AllComplete }
              if unprocessedComments.length = 0 &&
                  ciStatus.failures.length = 0 && ciStatus.AllComplete then
                ⟨some ({ review with status := .satisfied }).MarkSatisfied,
                 .nil, false, false⟩
              else
                let review := { review with status := .reviewing }
                if env.streamReviewOk then
                  ⟨some review, .live, false, true⟩
                else
                  ⟨none, .nil, true, true⟩

/-! ### The tracking goroutine of `StartReview`

Lines 152–175 of `review_service.go` spawn a goroutine that forwards every
thought, and only after the thought channel closes calls
`state.MarkProcessed` and (optionally) resolves the real comments on GitHub.
Its interaction with the outside world is embedded as the action trace it
performs on a given (finite) incoming thought stream. -/

/-- Externally visible actions of the tracking goroutine, in order. -/
inductive TraceAction where
  | forwardThought (t : ThoughtChunk)
  | markCompleted
  | markProcessedCall (key : String) (cs : List Comment)
  | resolveCommentCall (id : Int)
deriving DecidableEq, Repr

/-- Embedding of the tracking goroutine's body: the `for … range thoughts`
loop forwards each thought; once the channel closes the review is marked
complete, `MarkProcessed` is called once with this cycle's comments, and —
when `markAddressed` is set — each real (positive-ID) comment is resolved
best-effort. -/
def trackedStreamTrace (stateKey : String)
    (unprocessedComments : List Comment) (markAddressed : Bool) :
    List ThoughtChunk → List TraceAction
  | [] =>
      TraceAction.markCompleted ::
      TraceAction.markProcessedCall stateKey unprocessedComments ::
      (if markAddressed then
        (unprocessedComments.filter (fun c => 0 < c.id)).map
          (fun c => TraceAction.resolveCommentCall c.id)
      else [])
  | t :: rest =>
      TraceAction.forwardThought t ::
        trackedStreamTrace stateKey unprocessedComments markAddressed rest

/-- Is a trace action a `MarkProcessed` invocation? -/
def TraceAction.isMarkProcessed : TraceAction → Bool
  | .markProcessedCall _ _ => true
  | _ => false

/-! ## Watch loop (`service/review_service.go`, `Watcher`)

All `time.Now()` readings within one poll step are embedded as one explicit
clock value `now` (Go nanoseconds as `Int`); the later transition fired when
the cycle's thought stream closes gets its own clock value.  The remote
fetches of one step are gathered in `PollEnv`. -/

/-- Embedding of `service.WatchState`. -/
inductive WatchState where
  | idle
  | polling
  | batchWait
  | processing
  | cooldown
  | satisfied
  | error
deriving DecidableEq, Repr

/-- Embedding of `service.WatchEventType`. -/
inductive WatchEventType where
  | newComments
  | newCIFailures
  | reviewComplete
  | satisfiedEv
  | errorEv
  | cooldownEv
  | pollingEv
  | manualConfirm
deriving DecidableEq, Repr

/-- Embedding of `service.WatchOptions` (durations in nanoseconds). -/
structure WatchOptions where
  pollInterval : Int
  cooldownDuration : Int
  batchWaitDuration : Int
  requireManualConfirm : Bool
  includeNits : Bool
  includeOutdated : Bool
deriving DecidableEq, Repr

/-- Embedding of `service.DefaultWatchOptions` (15 s, 3 min, 30 s). -/
def DefaultWatchOptions : WatchOptions :=
  ⟨15000000000, 180000000000, 30000000000, true, true, true⟩

/-- The mutex-guarded mutable fields of `service.Watcher`. -/
structure WatcherState where
  wstate : WatchState
  lastCommitSHA : String
  lastCommentCount : Int
  lastCIFailureCount : Int
  processedCIOnce : Bool
  cooldownUntil : Int
  batchWaitUntil : Int
  currentReview : Option Review
deriving DecidableEq, Repr

/-- Embedding of `service.NewWatcher`'s initial state. -/
def NewWatcherState : WatcherState :=
  ⟨.idle, "", 0, 0, false, 0, 0, none⟩

/-- Remote outcomes one `checkForChanges` step may consume: the snapshot
fetch, the comment re-fetch inside `CheckSatisfaction` (`none` = that fetch
failed), the snapshot re-fetch after the batch window, and the
`StartReview` outcome. -/
structure PollEnv where
  fetch1 : Except String Review
  satRefetch : Option (List Comment)
  fetch2 : Except String Review
  startReview : StartReviewResult

/-- Result of one `checkForChanges` step: the watcher state it leaves
behind, the events it emitted in order, whether the Satisfaction Detector
(`CheckSatisfaction`) ran, and whether `StartReview` was invoked. -/
structure PollResult where
  w : WatcherState
  events : List WatchEventType
  detectorRan : Bool
  reviewStarted : Bool
deriving DecidableEq, Repr

/-- Tail of `checkForChanges` from the `StartReview` call on (lines
622–650): enter `processing`, store the snapshot, start the review; a
failure emits an error event and falls back to `polling`. -/
def startProcessing (w : WatcherState) (env : PollEnv) (review : Review)
    (eventType : WatchEventType) (ranDetector : Bool)
    (evs : List WatchEventType) : PollResult :=
  let w := { w with wstate := .processing, currentReview := some review }
  if (env.startReview).failed then
    ⟨{ w with wstate := .polling }, evs ++ [.errorEv], ranDetector, true⟩
  else
    ⟨w, evs ++ [eventType], ranDetector, true⟩

/-- Tail of `checkForChanges` after the satisfied gate (lines 543–620):
detect new CI failures, update the tracking fields, decide whether work is
needed, optionally wait out the batch window with a re-fetch, then hand over
to `startProcessing`. -/
def afterSatGate (opts : WatchOptions) (w : WatcherState) (now : Int)
    (env : PollEnv) (review : Review) (newComments newCommit : Bool)
    (ranDetector : Bool) (evs : List WatchEventType) : PollResult :=
  let newCIFailures :=
    decide (w.lastCIFailureCount < (review.ciFailures.length : Int))
  let w := if newCommit then { w with processedCIOnce := false } else w
  let w :=
    { w with
      lastCommitSHA := review.headCommit
      lastCommentCount := (review.comments.length : Int)
      lastCIFailureCount := (review.ciFailures.length : Int) }
  let step :=
    if newComments then some (WatchEventType.newComments, w)
    else if 0 < review.comments.length then
      some (WatchEventType.newComments, w)
    else if 0 < review.ciFailures.length &&
        (!w.processedCIOnce || newCIFailures) then
      some (WatchEventType.newCIFailures, { w with processedCIOnce := true })
    else none
  match step with
  | none => ⟨w, evs ++ [.pollingEv], ranDetector, false⟩
  | some (eventType, w) =>
      if 0 < opts.batchWaitDuration then
        let w :=
          { w with
            wstate := .batchWait
            batchWaitUntil := now + opts.batchWaitDuration }
        let evs := evs ++ [WatchEventType.pollingEv]
        match env.fetch2 with
        | .error _ => ⟨w, evs ++ [.errorEv], ranDetector, false⟩
        | .ok review2 =>
            let w :=
              { w with lastCommentCount := (review2.comments.length : Int) }
            startProcessing w env review2 eventType ranDetector evs
      else
        startProcessing w env review eventType ranDetector evs

/-- Expired-cooldown exit at the top of `checkForChanges` (lines 476–481):
leave `cooldown` for `polling` once the deadline has strictly passed. -/
def exitCooldownIfExpired (w : WatcherState) (now : Int) : WatcherState :=
  if w.wstate = .cooldown && w.cooldownUntil < now then
    { w with wstate := .polling }
  else w

/-- Body of `Watcher.checkForChanges` from the snapshot fetch on (lines
483–541), with `w` the watcher state after the expired-cooldown exit: emit
the polling event, fetch a snapshot, run the Satisfaction Detector only when
the snapshot is clean (no comments, no CI failures, all CI complete) and the
CodeRabbit check was found and completed, and otherwise fall through to the
work detection (`newComments`/`newCommit` are the comparisons of lines
509–510 against the last-observed tracking fields). -/
def pollBody (opts : WatchOptions) (w : WatcherState) (now : Int)
    (env : PollEnv) : PollResult :=
  match env.fetch1 with
  | .error _ => ⟨w, [.pollingEv, .errorEv], false, false⟩
  | .ok review =>
      if review.comments.length = 0 && review.ciFailures.length = 0 &&
          review.ciAllComplete &&
          (review.codeRabbitFound && review.codeRabbitCompleted) then
        if (CheckSatisfaction review env.satRefetch).isSatisfied then
          if opts.requireManualConfirm then
            ⟨w, [.pollingEv, .manualConfirm], true, false⟩
          else
            ⟨{ w with wstate := .satisfied }, [.pollingEv, .satisfiedEv],
             true, false⟩
        else
          afterSatGate opts w now env review
            (decide (w.lastCommentCount < (review.comments.length : Int)))
            (decide (review.headCommit ≠ w.lastCommitSHA)) true
            [.pollingEv]
      else
        afterSatGate opts w now env review
          (decide (w.lastCommentCount < (review.comments.length : Int)))
          (decide (review.headCommit ≠ w.lastCommitSHA)) false
          [.pollingEv]

/-- Embedding of `Watcher.checkForChanges` (one poll step, without the
drain goroutine it spawns — that transition is `onThoughtStreamClosed`):
skip while processing or within cooldown, exit an expired cooldown, then run
`pollBody`. -/
def checkForChanges (opts : WatchOptions) (w : WatcherState) (now : Int)
    (env : PollEnv) : PollResult :=
  if w.wstate = .processing then ⟨w, [.pollingEv], false, false⟩
  else if w.wstate = .cooldown && now < w.cooldownUntil then
    ⟨w, [.cooldownEv], false, false⟩
  else
    pollBody opts (exitCooldownIfExpired w now) now env

/-- Embedding of the drain goroutine's completion (lines 672–693): once the
cycle's thought stream has closed, emit the review-complete event, enter
`cooldown` with deadline `now + CooldownDuration`, and emit the cooldown
event. -/
def onThoughtStreamClosed (opts : WatchOptions) (w : WatcherState)
    (now : Int) : WatcherState × List WatchEventType :=
  ({ w with
     wstate := .cooldown
     cooldownUntil := now + opts.cooldownDuration },
   [.reviewComplete, .cooldownEv])

/-- Embedding of `Watcher.GetCooldownRemaining`. -/
def GetCooldownRemaining (w : WatcherState) (now : Int) : Int :=
  if w.wstate ≠ .cooldown then 0
  else
    let remaining := w.cooldownUntil - now
    if remaining < 0 then 0 else remaining

/-- Embedding of `Watcher.GetBatchWaitRemaining`. -/
def GetBatchWaitRemaining (w : WatcherState) (now : Int) : Int :=
  if w.wstate ≠ .batchWait then 0
  else
    let remaining := w.batchWaitUntil - now
    if remaining < 0 then 0 else remaining

/-- Embedding of `Watcher.ConfirmSatisfied`. -/
def ConfirmSatisfied (w : WatcherState) : WatcherState :=
  { w with wstate := .satisfied }

/-- Embedding of `Watcher.RejectSatisfied`. -/
def RejectSatisfied (w : WatcherState) : WatcherState :=
  { w with wstate := .polling }

/-! ## Derived score functions and sample values

`satisfactionScoreOf`/`actionScoreOf` restate the detector's loop counters in
closed form (pattern hits plus weighted keyword hits); the theorems below
relate `AnalyzeReview` to them.  `idsFold`/`hashesFold` restate the two
merge loops of `MarkProcessed` at the list level.  The `sample…` values are
concrete instantiation data. -/

/-- Satisfaction score of a text: one per matching satisfaction pattern plus
two per satisfaction keyword contained in the upper-cased text. -/
def satisfactionScoreOf (text : String) : Nat :=
  (satisfactionPatterns.filter (fun pr => reSearch pr.2 text.data)).length +
    2 * (satisfactionKeywords.filter
      (fun kw => strContains (strToUpper text) kw)).length

/-- Action score of a text: one per matching action pattern plus one per
issue keyword contained in the upper-cased text. -/
def actionScoreOf (text : String) : Nat :=
  (actionRequiredPatterns.filter (fun pr => reSearch pr.2 text.data)).length +
    (issueKeywords.filter (fun kw => strContains (strToUpper text) kw)).length

/-- The processed-ID merge loop of `MarkProcessed`, at the list level. -/
def idsFold (l : List Int) (cs : List Comment) : List Int :=
  cs.foldl (fun l c => addIdIfAbsent l c.id) l

/-- The processed-fingerprint merge loop of `MarkProcessed`, at the list
level. -/
def hashesFold (l : List String) (cs : List Comment) : List String :=
  cs.foldl
    (fun l c => addHashIfAbsent l (HashComment c.filePath c.lineNumber c.body))
    l

/-- A sample pull request. -/
def samplePR : PullRequest :=
  ⟨"feature", "main", "abc123", "def456", "title", "author"⟩

/-- A sample environment in which every fetch succeeds, there are no
comments, and CI is clean. -/
def sampleEnv : ReviewEnv :=
  ⟨.ok ("o", "r"), .missing, .ok samplePR, .ok [], .ok emptyCIStatus, true⟩

/-- A sample review configuration. -/
def sampleConfig : ReviewConfig :=
  ⟨1, true, true, false, false⟩

/-- A sample comment. -/
def sampleComment : Comment :=
  ⟨7, "a.go", 3, 3, "body", "", "", "", "", "", false, false, false, false⟩

/-- The sample comment under a different (synthetic) ID but the same
(path, line, body). -/
def sampleComment2 : Comment :=
  ⟨8, "a.go", 3, 3, "body", "", "", "", "", "", false, false, false, false⟩

/-- A sample snapshot that passes the watcher's satisfied gate and whose
thoughts satisfy the detector. -/
def sampleSatisfiedReview : Review :=
  { NewReview 1 "o/r" with
    ciAllComplete := true
    codeRabbitFound := true
    codeRabbitCompleted := true
    thoughts := [⟨"LGTM", .thinking, ""⟩, ⟨"approved", .thinking, ""⟩] }

/-- A sample poll environment whose snapshot fetch yields
`sampleSatisfiedReview` and whose comment re-fetch fails. -/
def samplePollEnv : PollEnv :=
  ⟨.ok sampleSatisfiedReview, none, .ok sampleSatisfiedReview,
   ⟨none, .nil, false, false⟩⟩

/-! ## Theorems

Shared helper lemmas come first; the claim theorems (and their witnesses or
counterexamples) follow, one per claim. -/

theorem contains_int_iff {l : List Int} {x : Int} :
    l.contains x = true ↔ x ∈ l :=
  List.elem_iff

theorem contains_str_iff {l : List String} {x : String} :
    l.contains x = true ↔ x ∈ l :=
  List.elem_iff

theorem addIdIfAbsent_of_mem {l : List Int} {x : Int} (h : x ∈ l) :
    addIdIfAbsent l x = l := by
  simp [addIdIfAbsent, h]

theorem mem_addIdIfAbsent_self (l : List Int) (x : Int) :
    x ∈ addIdIfAbsent l x := by
  unfold addIdIfAbsent
  split
  · exact contains_int_iff.mp (by assumption)
  · simp

theorem mem_addIdIfAbsent_of_mem {l : List Int} {x : Int} (y : Int)
    (h : x ∈ l) : x ∈ addIdIfAbsent l y := by
  unfold addIdIfAbsent
  split
  · exact h
  · exact List.mem_append_left _ h

theorem nodup_addIdIfAbsent {l : List Int} (x : Int) (h : l.Nodup) :
    (addIdIfAbsent l x).Nodup := by
  unfold addIdIfAbsent
  split
  · exact h
  · refine List.Nodup.append h (List.nodup_singleton x) ?_
    intro a ha hb
    simp only [List.mem_singleton] at hb
    subst hb
    exact absurd (contains_int_iff.mpr ha) (by simp_all)

theorem addHashIfAbsent_of_mem {l : List String} {x : String} (h : x ∈ l) :
    addHashIfAbsent l x = l := by
  simp [addHashIfAbsent, h]

theorem mem_addHashIfAbsent_self (l : List String) (x : String) :
    x ∈ addHashIfAbsent l x := by
  unfold addHashIfAbsent
  split
  · exact contains_str_iff.mp (by assumption)
  · simp

theorem mem_addHashIfAbsent_of_mem {l : List String} {x : String} (y : String)
    (h : x ∈ l) : x ∈ addHashIfAbsent l y := by
  unfold addHashIfAbsent
  split
  · exact h
  · exact List.mem_append_left _ h

theorem nodup_addHashIfAbsent {l : List String} (x : String) (h : l.Nodup) :
    (addHashIfAbsent l x).Nodup := by
  unfold addHashIfAbsent
  split
  · exact h
  · refine List.Nodup.append h (List.nodup_singleton x) ?_
    intro a ha hb
    simp only [List.mem_singleton] at hb
    subst hb
    exact absurd (contains_str_iff.mpr ha) (by simp_all)

theorem markList_ids (cs : List Comment) (s : TrackerState) :
    (markList s cs).processedCommentIDs = idsFold s.processedCommentIDs cs := by
  induction cs generalizing s with
  | nil => rfl
  | cons c cs ih =>
      show (markList (markOne s c) cs).processedCommentIDs = _
      rw [ih]
      rfl

theorem markList_hashes (cs : List Comment) (s : TrackerState) :
    (markList s cs).processedByHash = hashesFold s.processedByHash cs := by
  induction cs generalizing s with
  | nil => rfl
  | cons c cs ih =>
      show (markList (markOne s c) cs).processedByHash = _
      rw [ih]
      rfl

theorem markProcessedState_ids (s : TrackerState) (cs : List Comment)
    (ts : String) :
    (markProcessedState s cs ts).processedCommentIDs =
      idsFold s.processedCommentIDs cs := by
  unfold markProcessedState
  split <;> simp [markList_ids]

theorem markProcessedState_hashes (s : TrackerState) (cs : List Comment)
    (ts : String) :
    (markProcessedState s cs ts).processedByHash =
      hashesFold s.processedByHash cs := by
  unfold markProcessedState
  split <;> simp [markList_hashes]

theorem mem_idsFold_of_mem {x : Int} {l : List Int} (cs : List Comment)
    (h : x ∈ l) : x ∈ idsFold l cs := by
  induction cs generalizing l with
  | nil => exact h
  | cons c cs ih => exact ih (mem_addIdIfAbsent_of_mem _ h)

theorem mem_idsFold_of_comment {c : Comment} {cs : List Comment}
    (l : List Int) (h : c ∈ cs) : c.id ∈ idsFold l cs := by
  induction cs generalizing l with
  | nil => cases h
  | cons c' cs ih =>
      rcases List.mem_cons.mp h with rfl | h
      · exact mem_idsFold_of_mem cs (mem_addIdIfAbsent_self l c.id)
      · exact ih _ h

theorem idsFold_of_all_mem {l : List Int} {cs : List Comment}
    (h : ∀ c ∈ cs, c.id ∈ l) : idsFold l cs = l := by
  induction cs with
  | nil => rfl
  | cons c cs ih =>
      have h1 : c.id ∈ l := h c (List.mem_cons_self c cs)
      show idsFold (addIdIfAbsent l c.id) cs = l
      rw [addIdIfAbsent_of_mem h1]
      exact ih (fun c' hc' => h c' (List.mem_cons_of_mem _ hc'))

theorem nodup_idsFold {l : List Int} (cs : List Comment) (h : l.Nodup) :
    (idsFold l cs).Nodup := by
  induction cs generalizing l with
  | nil => exact h
  | cons c cs ih => exact ih (nodup_addIdIfAbsent _ h)

theorem mem_hashesFold_of_mem {x : String} {l : List String}
    (cs : List Comment) (h : x ∈ l) : x ∈ hashesFold l cs := by
  induction cs generalizing l with
  | nil => exact h
  | cons c cs ih => exact ih (mem_addHashIfAbsent_of_mem _ h)

theorem mem_hashesFold_of_comment {c : Comment} {cs : List Comment}
    (l : List String) (h : c ∈ cs) :
    HashComment c.filePath c.lineNumber c.body ∈ hashesFold l cs := by
  induction cs generalizing l with
  | nil => cases h
  | cons c' cs ih =>
      rcases List.mem_cons.mp h with rfl | h
      · exact mem_hashesFold_of_mem cs (mem_addHashIfAbsent_self l _)
      · exact ih _ h

theorem hashesFold_of_all_mem {l : List String} {cs : List Comment}
    (h : ∀ c ∈ cs, HashComment c.filePath c.lineNumber c.body ∈ l) :
    hashesFold l cs = l := by
  induction cs with
  | nil => rfl
  | cons c cs ih =>
      have h1 := h c (List.mem_cons_self c cs)
      show hashesFold (addHashIfAbsent l _) cs = l
      rw [addHashIfAbsent_of_mem h1]
      exact ih (fun c' hc' => h c' (List.mem_cons_of_mem _ hc'))

theorem nodup_hashesFold {l : List String} (cs : List Comment)
    (h : l.Nodup) : (hashesFold l cs).Nodup := by
  induction cs generalizing l with
  | nil => exact h
  | cons c cs ih => exact ih (nodup_addHashIfAbsent _ h)

theorem markTwice_ids (s : TrackerState) (cs : List Comment) (ts : String) :
    (markProcessedState (markProcessedState s cs ts) cs ts).processedCommentIDs
      = (markProcessedState s cs ts).processedCommentIDs := by
  rw [markProcessedState_ids, markProcessedState_ids]
  exact idsFold_of_all_mem (fun c hc => mem_idsFold_of_comment _ hc)

theorem markTwice_hashes (s : TrackerState) (cs : List Comment)
    (ts : String) :
    (markProcessedState (markProcessedState s cs ts) cs ts).processedByHash
      = (markProcessedState s cs ts).processedByHash := by
  rw [markProcessedState_hashes, markProcessedState_hashes]
  exact hashesFold_of_all_mem (fun c hc => mem_hashesFold_of_comment _ hc)

theorem storedStateOf_applyMark_stored (d : TrackerData) (key : String)
    (cs : List Comment) (ts : String) :
    storedStateOf (applyMark key cs ts (.stored d)) key
      = some (markProcessedState ((d key).getD emptyTrackerState) cs ts) := by
  simp [applyMark, MarkProcessed, Load, Save, storedStateOf,
    markProcessedData]

theorem storedStateOf_stored (d : TrackerData) (key : String) :
    storedStateOf (.stored d) key = d key := rfl

theorem markProcessedData_self (d : TrackerData) (key : String)
    (cs : List Comment) (ts : String) :
    markProcessedData d key cs ts key
      = some (markProcessedState ((d key).getD emptyTrackerState) cs ts) := by
  simp [markProcessedData]

theorem applyMark_twice_stored (d : TrackerData) (key : String)
    (cs : List Comment) (ts : String) :
    (storedStateOf (applyMark key cs ts (applyMark key cs ts (.stored d)))
        key).map (fun s => s.processedCommentIDs) =
      (storedStateOf (applyMark key cs ts (.stored d)) key).map
        (fun s => s.processedCommentIDs) ∧
    (storedStateOf (applyMark key cs ts (applyMark key cs ts (.stored d)))
        key).map (fun s => s.processedByHash) =
      (storedStateOf (applyMark key cs ts (.stored d)) key).map
        (fun s => s.processedByHash) := by
  have h1 : applyMark key cs ts (StateFile.stored d)
      = .stored (markProcessedData d key cs ts) := rfl
  have h2 : ((markProcessedData d key cs ts) key).getD emptyTrackerState
      = markProcessedState ((d key).getD emptyTrackerState) cs ts := by
    simp [markProcessedData]
  rw [h1, storedStateOf_applyMark_stored, h2, storedStateOf_stored,
    markProcessedData_self]
  constructor
  · simpa using congrArg some (markTwice_ids _ cs ts)
  · simpa using congrArg some (markTwice_hashes _ cs ts)

/-- C2: `IsCommentProcessed` is true exactly when the comment's ID is in the
processed-ID set or its fingerprint `HashComment filePath line body` is in
the processed-fingerprint set; in particular a comment `c'` with any (new,
synthetic) ID but the same (path, line, body) as a comment `c` that was just
marked processed is reported processed. -/
theorem isCommentProcessed_id_or_fingerprint :
    (∀ (state : TrackerState) (c : Comment),
      IsCommentProcessed state c = true ↔
        c.id ∈ state.processedCommentIDs ∨
          HashComment c.filePath c.lineNumber c.body ∈
            state.processedByHash) ∧
    (∀ (state : TrackerState) (c c' : Comment),
      c'.filePath = c.filePath → c'.lineNumber = c.lineNumber →
      c'.body = c.body →
      IsCommentProcessed (markOne state c) c' = true) := by
  have base : ∀ (state : TrackerState) (c : Comment),
      IsCommentProcessed state c = true ↔
        c.id ∈ state.processedCommentIDs ∨
          HashComment c.filePath c.lineNumber c.body ∈
            state.processedByHash := by
    intro state c
    simp [IsCommentProcessed]
  refine ⟨base, ?_⟩
  intro state c c' hp hl hb
  rw [base]
  right
  have hh : HashComment c'.filePath c'.lineNumber c'.body =
      HashComment c.filePath c.lineNumber c.body := by
    rw [hp, hl, hb]
  rw [hh]
  exact mem_addHashIfAbsent_self _ _

/-- Witness for C2 at concrete inputs: `sampleComment2` has a different ID
but the same (path, line, body) as the just-marked `sampleComment`. -/
theorem isCommentProcessed_id_or_fingerprint_witness :
    IsCommentProcessed (markOne emptyTrackerState sampleComment)
      sampleComment2 = true :=
  isCommentProcessed_id_or_fingerprint.2 emptyTrackerState sampleComment
    sampleComment2 rfl rfl rfl

/-- C3: `MarkProcessed` is idempotent in its comment set — marking the same
comments twice leaves exactly the stored processed-ID and
processed-fingerprint lists of marking once — and it never introduces a
duplicate into either list. -/
theorem markProcessed_idempotent :
    (∀ (f : StateFile) (key : String) (cs : List Comment) (ts : String),
      (storedStateOf (applyMark key cs ts (applyMark key cs ts f)) key).map
          (fun s => s.processedCommentIDs) =
        (storedStateOf (applyMark key cs ts f) key).map
          (fun s => s.processedCommentIDs) ∧
      (storedStateOf (applyMark key cs ts (applyMark key cs ts f)) key).map
          (fun s => s.processedByHash) =
        (storedStateOf (applyMark key cs ts f) key).map
          (fun s => s.processedByHash)) ∧
    (∀ (s : TrackerState) (cs : List Comment) (ts : String),
      (s.processedCommentIDs.Nodup →
        (markProcessedState s cs ts).processedCommentIDs.Nodup) ∧
      (s.processedByHash.Nodup →
        (markProcessedState s cs ts).processedByHash.Nodup)) := by
  constructor
  · intro f key cs ts
    cases f with
    | missing =>
        have h0 : applyMark key cs ts StateFile.missing
            = applyMark key cs ts (.stored emptyTrackerData) := rfl
        rw [h0]
        exact applyMark_twice_stored emptyTrackerData key cs ts
    | unreadable => exact ⟨rfl, rfl⟩
    | corrupt => exact ⟨rfl, rfl⟩
    | stored d => exact applyMark_twice_stored d key cs ts
  · intro s cs ts
    constructor
    · intro h
      rw [markProcessedState_ids]
      exact nodup_idsFold cs h
    · intro h
      rw [markProcessedState_hashes]
      exact nodup_hashesFold cs h

/-- Witness for C3 at concrete inputs: marking `[sampleComment]` twice on a
missing file stores the same ID list as marking once, and marking preserves
the (trivially duplicate-free) empty ID list. -/
theorem markProcessed_idempotent_witness :
    ((storedStateOf
        (applyMark "o/r#1" [sampleComment] ""
          (applyMark "o/r#1" [sampleComment] "" StateFile.missing))
        "o/r#1").map (fun s => s.processedCommentIDs) =
      (storedStateOf (applyMark "o/r#1" [sampleComment] "" StateFile.missing)
        "o/r#1").map (fun s => s.processedCommentIDs)) ∧
    (markProcessedState emptyTrackerState [sampleComment]
      "").processedCommentIDs.Nodup :=
  ⟨(markProcessed_idempotent.1 StateFile.missing "o/r#1" [sampleComment]
      "").1,
   (markProcessed_idempotent.2 emptyTrackerState [sampleComment] "").1
     List.nodup_nil⟩

/-- C7: within one review cycle the tracking goroutine forwards every
streamed thought first, and `MarkProcessed` happens exactly once — with the
cycle's entire comment set — strictly after the stream has closed: the trace
equals the forwarded thoughts followed by completion, the single
`MarkProcessed` call and the optional best-effort resolutions, and no trace
prefix confined to the streaming phase contains a `MarkProcessed` call. -/
theorem markProcessed_only_after_stream_close (key : String)
    (cs : List Comment) (ma : Bool) (ts : List ThoughtChunk) :
    (trackedStreamTrace key cs ma ts =
      ts.map TraceAction.forwardThought ++
        TraceAction.markCompleted ::
          TraceAction.markProcessedCall key cs ::
            (if ma then
              (cs.filter (fun c => 0 < c.id)).map
                (fun c => TraceAction.resolveCommentCall c.id)
            else [])) ∧
    ((trackedStreamTrace key cs ma ts).filter TraceAction.isMarkProcessed =
      [TraceAction.markProcessedCall key cs]) ∧
    (∀ n ≤ ts.length, ∀ (k' : String) (cs' : List Comment),
      TraceAction.markProcessedCall k' cs' ∉
        (trackedStreamTrace key cs ma ts).take n) := by
  have hshape : trackedStreamTrace key cs ma ts =
      ts.map TraceAction.forwardThought ++
        TraceAction.markCompleted ::
          TraceAction.markProcessedCall key cs ::
            (if ma then
              (cs.filter (fun c => 0 < c.id)).map
                (fun c => TraceAction.resolveCommentCall c.id)
            else []) := by
    induction ts with
    | nil => rfl
    | cons t ts ih =>
        show TraceAction.forwardThought t :: trackedStreamTrace key cs ma ts
            = _
        rw [ih]
        rfl
  refine ⟨hshape, ?_, ?_⟩
  · rw [hshape]
    rw [List.filter_append]
    have h1 : (ts.map TraceAction.forwardThought).filter
        TraceAction.isMarkProcessed = [] := by
      rw [List.filter_eq_nil_iff]
      intro a ha
      rcases List.mem_map.mp ha with ⟨t, _, rfl⟩
      simp [TraceAction.isMarkProcessed]
    rw [h1]
    have h2 : (if ma then
        (cs.filter (fun c => 0 < c.id)).map
          (fun c => TraceAction.resolveCommentCall c.id)
      else []).filter TraceAction.isMarkProcessed = [] := by
      rw [List.filter_eq_nil_iff]
      intro a ha
      split at ha
      · rcases List.mem_map.mp ha with ⟨c, _, rfl⟩
        simp [TraceAction.isMarkProcessed]
      · cases ha
    simp [TraceAction.isMarkProcessed, h2]
  · intro n hn k' cs' hmem
    rw [hshape] at hmem
    rw [List.take_append_of_le_length (by simpa using hn)] at hmem
    rcases List.mem_map.mp (List.mem_of_mem_take hmem) with ⟨t, _, ht⟩
    cases ht

/-- Witness for C7 at concrete inputs: a two-thought stream for one comment,
with best-effort resolution enabled. -/
theorem markProcessed_only_after_stream_close_witness :
    ∀ (k' : String) (cs' : List Comment),
      TraceAction.markProcessedCall k' cs' ∉
        (trackedStreamTrace "o/r#1" [sampleComment] true
          [⟨"a", .thinking, ""⟩, ⟨"b", .thinking, ""⟩]).take 2 :=
  (markProcessed_only_after_stream_close "o/r#1" [sampleComment] true
    [⟨"a", .thinking, ""⟩, ⟨"b", .thinking, ""⟩]).2.2 2 (by decide)

/-- Counterexample to C4 as stated: `isCode` returns `false` on the line
`func main() {` — none of the code patterns has Go's `func` keyword among
its alternatives (the function-definition pattern lists
`function|class|const|let|var|def|async|await`, all `^`-anchored), the line
is 13 bytes long, and it is not brace-delimited — so the heuristic does not
classify the line as code. -/
theorem isCode_funcMain_false : isCode "func main() \x7b" = false := by
  decide

/-- C4 (amended): the line `func main() {` is *not* classified as code by
`isCode`; consequently `processLine` does not drop it but emits it as a
thought with that same content, classified `thinking`, tagged with the
filter's current file (the line carries no file reference). -/
theorem funcMain_line_kept_as_thought :
    isCode "func main() \x7b" = false ∧
    ∀ ps : StreamFilterState,
      processLine ps "func main() \x7b" =
        (some ⟨"func main() \x7b", ThoughtType.thinking, ps.currentFile⟩,
         ps) :=
  ⟨by decide, fun _ps => rfl⟩

theorem signalFold_fst (hit : α → Bool) (weight : Nat) (note : α → String)
    (xs : List α) (acc : Nat × List String) :
    (signalFold hit weight note xs acc).1 =
      acc.1 + weight * (xs.filter hit).length := by
  induction xs generalizing acc with
  | nil => simp [signalFold]
  | cons x xs ih =>
      show (signalFold hit weight note xs
        (if hit x then (acc.1 + weight, acc.2 ++ [note x]) else acc)).1 = _
      by_cases h : hit x = true
      · rw [if_pos h, ih, List.filter_cons, if_pos h]
        simp only [List.length_cons, Nat.mul_add, Nat.mul_one]
        omega
      · rw [if_neg h, ih, List.filter_cons,
          if_neg (by simpa using h)]

theorem satScores_eq (text : String) :
    (signalFold (fun kw => strContains (strToUpper text) kw) 2
      (fun kw => "Found satisfaction keyword: " ++ kw) satisfactionKeywords
      (signalFold (fun pr => reSearch pr.2 text.data) 1
        (fun pr => "Found satisfaction pattern: " ++ pr.1)
        satisfactionPatterns (0, []))).1 = satisfactionScoreOf text := by
  rw [signalFold_fst, signalFold_fst]
  simp [satisfactionScoreOf]

theorem actScores_eq (text : String) :
    (signalFold (fun kw => strContains (strToUpper text) kw) 1
      (fun kw => "Found issue keyword: " ++ kw) issueKeywords
      (signalFold (fun pr => reSearch pr.2 text.data) 1
        (fun pr => "Found action pattern: " ++ pr.1)
        actionRequiredPatterns (0, []))).1 = actionScoreOf text := by
  rw [signalFold_fst, signalFold_fst]
  simp [actionScoreOf]

theorem analyzeReview_confidence_eq (review : Review) :
    (AnalyzeReview review).confidence =
      (if satisfactionScoreOf
            (combineThoughts (getRecentThoughts review.thoughts 20)) +
          actionScoreOf
            (combineThoughts (getRecentThoughts review.thoughts 20)) = 0
       then (1 : ℚ) / 2
       else (satisfactionScoreOf
            (combineThoughts (getRecentThoughts review.thoughts 20)) : ℚ) /
          ((satisfactionScoreOf
              (combineThoughts (getRecentThoughts review.thoughts 20)) +
            actionScoreOf
              (combineThoughts (getRecentThoughts review.thoughts 20)) :
            Nat) : ℚ)) := by
  simp only [AnalyzeReview]
  rw [satScores_eq, actScores_eq]

theorem analyzeReview_isSatisfied_eq (review : Review) :
    (AnalyzeReview review).isSatisfied =
      (decide (2 ≤ satisfactionScoreOf
          (combineThoughts (getRecentThoughts review.thoughts 20))) &&
       decide (actionScoreOf
            (combineThoughts (getRecentThoughts review.thoughts 20)) <
          satisfactionScoreOf
            (combineThoughts (getRecentThoughts review.thoughts 20))) &&
       decide ((3 : ℚ) / 5 < (AnalyzeReview review).confidence)) := by
  rw [analyzeReview_confidence_eq]
  simp only [AnalyzeReview]
  rw [satScores_eq, actScores_eq]

/-- C5: over the concatenated content of the most recent 20 thoughts, with
pattern hits scoring 1 and satisfaction-keyword hits scoring 2,
`AnalyzeReview` computes confidence = satisfactionScore / (satisfactionScore
+ actionScore) (0.5 when both scores are zero, the `float64` quotient
embedded as `ℚ`) and its verdict is true exactly when satisfactionScore ≥ 2,
satisfactionScore > actionScore, and confidence > 0.6. -/
theorem analyzeReview_confidence_and_verdict (review : Review) :
    ((AnalyzeReview review).confidence =
      (if satisfactionScoreOf
            (combineThoughts (getRecentThoughts review.thoughts 20)) +
          actionScoreOf
            (combineThoughts (getRecentThoughts review.thoughts 20)) = 0
       then (1 : ℚ) / 2
       else (satisfactionScoreOf
            (combineThoughts (getRecentThoughts review.thoughts 20)) : ℚ) /
          ((satisfactionScoreOf
              (combineThoughts (getRecentThoughts review.thoughts 20)) +
            actionScoreOf
              (combineThoughts (getRecentThoughts review.thoughts 20)) :
            Nat) : ℚ))) ∧
    ((AnalyzeReview review).isSatisfied = true ↔
      2 ≤ satisfactionScoreOf
          (combineThoughts (getRecentThoughts review.thoughts 20)) ∧
      actionScoreOf (combineThoughts (getRecentThoughts review.thoughts 20)) <
        satisfactionScoreOf
          (combineThoughts (getRecentThoughts review.thoughts 20)) ∧
      (3 : ℚ) / 5 < (AnalyzeReview review).confidence) := by
  refine ⟨analyzeReview_confidence_eq review, ?_⟩
  rw [analyzeReview_isSatisfied_eq]
  simp [and_assoc]

theorem startReview_fast_path_aux
    (env : ReviewEnv) (config : ReviewConfig) (owner repo : String)
    (pr : PullRequest) (cs : List Comment)
    (hRepo : env.repoInfo = .ok (owner, repo))
    (hPR : env.pullRequest = .ok pr)
    (hCs : effComments env.commentsFetch = some cs)
    (hUnproc : FilterUnprocessed
        (startTracker env config (GetStateKey owner repo config.prNumber))
        (filterComments cs config) = [])
    (hFail : (effCIStatus env).failures = [])
    (hPend : (effCIStatus env).pendingCount = 0) :
    (StartReview env config).review.map (fun r => r.status) =
        some ReviewStatus.satisfied ∧
    (StartReview env config).review.map (fun r => r.satisfied) = some true ∧
    (StartReview env config).review.map (fun r => r.ciAllComplete) =
        some true ∧
    (StartReview env config).review.map (fun r => r.ciFailures) = some [] ∧
    (StartReview env config).thoughtStream = ThoughtStreamHandle.nil ∧
    (StartReview env config).failed = false ∧
    (StartReview env config).agentInvoked = false := by
  simp only [StartReview, hRepo, hPR, hCs, hUnproc, hFail, hPend,
    CIStatus.AllComplete, Review.MarkSatisfied]
  simp [hPend, hFail]

/-- C1: whenever the config filter followed by the dedup filter leaves zero
unprocessed comments, the effective CI status reports zero failures and no
pending checks (and the identity/metadata fetches succeed so the cycle runs
at all), `StartReview` returns a session with status `satisfied` and a nil
thought stream, without error, and the agent runner is never invoked. -/
theorem startReview_satisfied_fast_path
    (env : ReviewEnv) (config : ReviewConfig) (owner repo : String)
    (pr : PullRequest) (cs : List Comment)
    (hRepo : env.repoInfo = .ok (owner, repo))
    (hPR : env.pullRequest = .ok pr)
    (hCs : effComments env.commentsFetch = some cs)
    (hUnproc : FilterUnprocessed
        (startTracker env config (GetStateKey owner repo config.prNumber))
        (filterComments cs config) = [])
    (hFail : (effCIStatus env).failures = [])
    (hPend : (effCIStatus env).pendingCount = 0) :
    (StartReview env config).review.map (fun r => r.status) =
        some ReviewStatus.satisfied ∧
    (StartReview env config).thoughtStream = ThoughtStreamHandle.nil ∧
    (StartReview env config).failed = false ∧
    (StartReview env config).agentInvoked = false := by
  obtain ⟨h1, _, _, _, h5, h6, h7⟩ :=
    startReview_fast_path_aux env config owner repo pr cs hRepo hPR hCs
      hUnproc hFail hPend
  exact ⟨h1, h5, h6, h7⟩

/-- Witness for C1 at a concrete environment: clean fetches, no comments,
empty CI status. -/
theorem startReview_satisfied_fast_path_witness :
    (StartReview sampleEnv sampleConfig).review.map (fun r => r.status) =
        some ReviewStatus.satisfied ∧
    (StartReview sampleEnv sampleConfig).thoughtStream =
        ThoughtStreamHandle.nil ∧
    (StartReview sampleEnv sampleConfig).failed = false ∧
    (StartReview sampleEnv sampleConfig).agentInvoked = false :=
  startReview_satisfied_fast_path sampleEnv sampleConfig "o" "r" samplePR []
    rfl rfl rfl rfl rfl rfl

/-- C10: when the CI fetch fails, `StartReview` continues with the
zero-valued `CIStatus`, whose `AllComplete` is true and whose failure list is
empty; consequently any input with zero unprocessed comments and a failed CI
fetch yields a `satisfied` session with a nil thought stream and no agent
invocation, and the session records CI as all-complete with no failures. -/
theorem startReview_ci_error_fallback
    (env : ReviewEnv) (config : ReviewConfig) (owner repo : String)
    (pr : PullRequest) (cs : List Comment) (e : String)
    (hCI : env.ciStatusFetch = .error e)
    (hRepo : env.repoInfo = .ok (owner, repo))
    (hPR : env.pullRequest = .ok pr)
    (hCs : effComments env.commentsFetch = some cs)
    (hUnproc : FilterUnprocessed
        (startTracker env config (GetStateKey owner repo config.prNumber))
        (filterComments cs config) = []) :
    effCIStatus env = emptyCIStatus ∧
    emptyCIStatus.AllComplete = true ∧
    emptyCIStatus.failures = [] ∧
    (StartReview env config).review.map (fun r => r.status) =
        some ReviewStatus.satisfied ∧
    (StartReview env config).review.map (fun r => r.ciAllComplete) =
        some true ∧
    (StartReview env config).review.map (fun r => r.ciFailures) = some [] ∧
    (StartReview env config).thoughtStream = ThoughtStreamHandle.nil ∧
    (StartReview env config).agentInvoked = false := by
  have hEff : effCIStatus env = emptyCIStatus := by
    simp [effCIStatus, hCI]
  obtain ⟨h1, _, h3, h4, h5, _, h7⟩ :=
    startReview_fast_path_aux env config owner repo pr cs hRepo hPR hCs
      hUnproc (by rw [hEff]; rfl) (by rw [hEff]; rfl)
  exact ⟨hEff, rfl, rfl, h1, h3, h4, h5, h7⟩

/-- Witness for C10 at a concrete environment whose CI fetch fails. -/
theorem startReview_ci_error_fallback_witness :
    effCIStatus { sampleEnv with ciStatusFetch := .error "boom" } =
        emptyCIStatus ∧
    (StartReview { sampleEnv with ciStatusFetch := .error "boom" }
        sampleConfig).review.map (fun r => r.status) =
      some ReviewStatus.satisfied ∧
    (StartReview { sampleEnv with ciStatusFetch := .error "boom" }
        sampleConfig).agentInvoked = false := by
  obtain ⟨h1, _, _, h4, _, _, _, h8⟩ :=
    startReview_ci_error_fallback
      { sampleEnv with ciStatusFetch := .error "boom" } sampleConfig
      "o" "r" samplePR [] "boom" rfl rfl rfl rfl rfl
  exact ⟨h1, h4, h8⟩

theorem getOrCreate_error_of_load {f : StateFile} {e : String}
    (h : Load f = .error e) (key : String) :
    GetOrCreate key f = .error e := by
  simp [GetOrCreate, h]

theorem startTracker_of_load_error {env : ReviewEnv} {e : String}
    (h : Load env.stateFile = .error e) (config : ReviewConfig)
    (key : String) : startTracker env config key = emptyTrackerState := by
  have happly : applyReset key env.stateFile = env.stateFile := by
    simp [applyReset, Reset, h]
  have heff : effStateFile env config key = env.stateFile := by
    unfold effStateFile
    split <;> simp [happly]
  rw [startTracker, heff, getOrCreate_error_of_load h key]

theorem getOrCreate_applyReset_missing (key : String) :
    GetOrCreate key (applyReset key StateFile.missing) =
      .ok emptyTrackerState := by
  show GetOrCreate key
    (Save (fun k => if k = key then none else emptyTrackerData k)) = _
  simp [GetOrCreate, Save, Load, emptyTrackerData]

theorem startTracker_missing (env : ReviewEnv) (config : ReviewConfig)
    (key : String) (henv : env.stateFile = StateFile.missing) :
    startTracker env config key = emptyTrackerState := by
  unfold startTracker effStateFile
  rw [henv]
  by_cases hr : config.resetState = true
  · rw [if_pos hr, getOrCreate_applyReset_missing]
  · rw [if_neg hr]
    rfl

/-- C9: `Load` returns the empty tracker data — hence `GetOrCreate` a
zero-valued tracker state — and no error when the state file is missing; and
when loading fails for any other reason, `StartReview` behaves exactly as it
does over a missing state file: it does not fail on that account but falls
back to a fresh empty in-memory tracker state and continues the cycle. -/
theorem load_missing_and_state_error_fallback :
    (Load StateFile.missing = Except.ok emptyTrackerData ∧
      ∀ key, GetOrCreate key StateFile.missing =
        Except.ok emptyTrackerState) ∧
    ∀ (env : ReviewEnv) (config : ReviewConfig) (e : String),
      Load env.stateFile = .error e →
      StartReview env config =
        StartReview { env with stateFile := StateFile.missing } config := by
  refine ⟨⟨rfl, fun key => rfl⟩, ?_⟩
  intro env config e hLoad
  have hA : ∀ key, startTracker env config key = emptyTrackerState :=
    startTracker_of_load_error hLoad config
  have hB : ∀ key,
      startTracker { env with stateFile := StateFile.missing } config key =
        emptyTrackerState :=
    fun key =>
      startTracker_missing { env with stateFile := StateFile.missing }
        config key rfl
  unfold StartReview
  simp only [hA, hB]
  rfl

/-- Witness for C9: an unreadable state file versus a missing one, at a
concrete environment. -/
theorem load_missing_and_state_error_fallback_witness :
    StartReview { sampleEnv with stateFile := StateFile.unreadable }
        sampleConfig =
      StartReview
        { { sampleEnv with stateFile := StateFile.unreadable } with
          stateFile := StateFile.missing } sampleConfig :=
  load_missing_and_state_error_fallback.2
    { sampleEnv with stateFile := StateFile.unreadable } sampleConfig
    "failed to read state file" rfl

/-- C8: when a cycle's thought stream closes, the watcher enters `cooldown`
with deadline `now + CooldownDuration` (emitting the review-complete and
cooldown events); `GetCooldownRemaining` is then positive at that instant
for a positive configured duration, is 0 at any time once the duration has
elapsed, and is 0 in any state other than `cooldown`. -/
theorem cooldown_after_stream_close (opts : WatchOptions) (w : WatcherState)
    (now : Int) :
    ((onThoughtStreamClosed opts w now).1.wstate = WatchState.cooldown) ∧
    ((onThoughtStreamClosed opts w now).1.cooldownUntil =
      now + opts.cooldownDuration) ∧
    ((onThoughtStreamClosed opts w now).2 =
      [WatchEventType.reviewComplete, WatchEventType.cooldownEv]) ∧
    (0 < opts.cooldownDuration →
      0 < GetCooldownRemaining (onThoughtStreamClosed opts w now).1 now) ∧
    (∀ t : Int, now + opts.cooldownDuration ≤ t →
      GetCooldownRemaining (onThoughtStreamClosed opts w now).1 t = 0) ∧
    (∀ (v : WatcherState) (t : Int), v.wstate ≠ WatchState.cooldown →
      GetCooldownRemaining v t = 0) := by
  refine ⟨rfl, rfl, rfl, ?_, ?_, ?_⟩
  · intro hD
    simp only [GetCooldownRemaining, onThoughtStreamClosed]
    simp only [ne_eq, not_true_eq_false, if_false]
    split
    · omega
    · omega
  · intro t ht
    simp only [GetCooldownRemaining, onThoughtStreamClosed]
    simp only [ne_eq, not_true_eq_false, if_false]
    split
    · rfl
    · omega
  · intro v t hv
    simp [GetCooldownRemaining, hv]

/-- Witness for C8 at the default options (3-minute cooldown), starting from
the initial watcher state at clock 0. -/
theorem cooldown_after_stream_close_witness :
    (0 < GetCooldownRemaining
      (onThoughtStreamClosed DefaultWatchOptions NewWatcherState 0).1 0) ∧
    (GetCooldownRemaining
      (onThoughtStreamClosed DefaultWatchOptions NewWatcherState 0).1
      180000000000 = 0) ∧
    (GetCooldownRemaining NewWatcherState 5 = 0) :=
  ⟨(cooldown_after_stream_close DefaultWatchOptions NewWatcherState
      0).2.2.2.1 (by decide),
   (cooldown_after_stream_close DefaultWatchOptions NewWatcherState
      0).2.2.2.2.1 180000000000 (by decide),
   (cooldown_after_stream_close DefaultWatchOptions NewWatcherState
      0).2.2.2.2.2 NewWatcherState 5 (by decide)⟩

theorem startProcessing_detectorRan (w : WatcherState) (env : PollEnv)
    (review : Review) (eventType : WatchEventType) (r : Bool)
    (evs : List WatchEventType) :
    (startProcessing w env review eventType r evs).detectorRan = r := by
  unfold startProcessing
  split <;> rfl

theorem afterSatGate_detectorRan (opts : WatchOptions) (w : WatcherState)
    (now : Int) (env : PollEnv) (review : Review) (nc ncom : Bool)
    (r : Bool) (evs : List WatchEventType) :
    (afterSatGate opts w now env review nc ncom r evs).detectorRan = r := by
  simp only [afterSatGate, startProcessing]
  repeat' split
  all_goals rfl

/-- C6: per poll, the Satisfaction Detector (`CheckSatisfaction`) runs only
when the fetched snapshot has zero unresolved comments, zero CI failures,
all CI complete, and CodeRabbit found-and-completed; and when it then
reports satisfied: with manual confirmation required the step emits a
manual-confirmation event leaving the stored watcher state exactly as it was
after the initial expired-cooldown exit, and without it the step transitions
to `satisfied` and emits the satisfied event. -/
theorem watch_poll_satisfaction_gate :
    (∀ (opts : WatchOptions) (w : WatcherState) (now : Int) (env : PollEnv),
      (checkForChanges opts w now env).detectorRan = true →
      ∃ review, env.fetch1 = .ok review ∧ review.comments = [] ∧
        review.ciFailures = [] ∧ review.ciAllComplete = true ∧
        review.codeRabbitFound = true ∧ review.codeRabbitCompleted = true) ∧
    (∀ (opts : WatchOptions) (w : WatcherState) (now : Int) (env : PollEnv)
      (review : Review),
      w.wstate ≠ WatchState.processing →
      ¬(w.wstate = WatchState.cooldown ∧ now < w.cooldownUntil) →
      env.fetch1 = .ok review →
      review.comments = [] → review.ciFailures = [] →
      review.ciAllComplete = true → review.codeRabbitFound = true →
      review.codeRabbitCompleted = true →
      (CheckSatisfaction review env.satRefetch).isSatisfied = true →
      (opts.requireManualConfirm = true →
        checkForChanges opts w now env =
          ⟨exitCooldownIfExpired w now,
           [WatchEventType.pollingEv, WatchEventType.manualConfirm], true,
           false⟩) ∧
      (opts.requireManualConfirm = false →
        checkForChanges opts w now env =
          ⟨{ exitCooldownIfExpired w now with wstate := .satisfied },
           [WatchEventType.pollingEv, WatchEventType.satisfiedEv], true,
           false⟩)) := by
  constructor
  · intro opts w now env h
    unfold checkForChanges at h
    split at h
    · simp at h
    · split at h
      · simp at h
      · cases hf : env.fetch1 with
        | error e =>
            simp only [pollBody, hf] at h
            exact absurd h (by decide)
        | ok review =>
            simp only [pollBody, hf] at h
            refine ⟨review, rfl, ?_⟩
            split at h
            · rename_i hgate
              simp only [Bool.and_eq_true, decide_eq_true_eq] at hgate
              obtain ⟨⟨⟨hc, hcf⟩, hac⟩, hfound, hdone⟩ := hgate
              exact ⟨List.length_eq_zero.mp hc, List.length_eq_zero.mp hcf,
                hac, hfound, hdone⟩
            · rw [afterSatGate_detectorRan] at h
              simp at h
  · intro opts w now env review h1 h2 hf hc hcf hac hfound hdone hsat
    have h2' : (decide (w.wstate = WatchState.cooldown) &&
        decide (now < w.cooldownUntil)) = false := by
      rcases not_and_or.mp h2 with h | h <;> simp [h]
    have hbody : checkForChanges opts w now env =
        pollBody opts (exitCooldownIfExpired w now) now env := by
      unfold checkForChanges
      rw [if_neg h1, if_neg (by simp [h2'])]
    have hpoll : pollBody opts (exitCooldownIfExpired w now) now env =
        (if opts.requireManualConfirm then
          ⟨exitCooldownIfExpired w now,
           [WatchEventType.pollingEv, WatchEventType.manualConfirm], true,
           false⟩
        else
          ⟨{ exitCooldownIfExpired w now with wstate := .satisfied },
           [WatchEventType.pollingEv, WatchEventType.satisfiedEv], true,
           false⟩) := by
      simp only [pollBody, hf, hc, hcf, hac, hfound, hdone, hsat]
      simp
    constructor
    · intro hm
      rw [hbody, hpoll, if_pos hm]
    · intro hm
      rw [hbody, hpoll, if_neg (by simp [hm])]

/-- Witness for C6 at a concrete poll: default options (manual confirmation
required), the initial watcher state, and a clean satisfied snapshot whose
thoughts contain `LGTM` and `approved`. -/
theorem watch_poll_satisfaction_gate_witness :
    checkForChanges DefaultWatchOptions NewWatcherState 0 samplePollEnv =
      ⟨exitCooldownIfExpired NewWatcherState 0,
       [WatchEventType.pollingEv, WatchEventType.manualConfirm], true,
       false⟩ :=
  (watch_poll_satisfaction_gate.2 DefaultWatchOptions NewWatcherState 0
      samplePollEnv sampleSatisfiedReview (by decide) (by decide) rfl rfl rfl
      rfl rfl rfl
      (by
        show (AnalyzeReview sampleSatisfiedReview).isSatisfied = true
        rw [analyzeReview_isSatisfied_eq, analyzeReview_confidence_eq]
        rw [show satisfactionScoreOf (combineThoughts
              (getRecentThoughts sampleSatisfiedReview.thoughts 20)) = 4 from
            rfl,
          show actionScoreOf (combineThoughts
              (getRecentThoughts sampleSatisfiedReview.thoughts 20)) = 0 from
            rfl]
        norm_num)).1 rfl

end DTools
